import Mathlib

/-!
Verification of the ASML assembler/VM toolchain (asml-rust).

This file gives a shallow embedding of the parts of the repository the
claims C1-C10 are about:

* `src/asml_vm/src/opcodes.rs`  : the `OpCode` enum and its `From<u8>` impl;
* `src/asml_vm/src/lib.rs`      : the `VM` struct, its instruction effects and
  the fetch/decode/execute loop `run`;
* `src/asml/src/compiler/lexer.rs`  : the byte-level `Lexer`;
* `src/asml/src/compiler/parser/program.rs` : `Program` / `CodePart` and
  `validate`;
* `src/asml/src/compiler/parser/mod.rs`     : `parse_address` / `parse_u16`;
* `src/asml/src/compiler/linker.rs`         : `link`.

Machine integers (`u8`, `u16`) are modelled as `Nat` with `% 256` / `% 65536`
applied exactly where the Rust code truncates (casts) or where release-mode
wrapping arithmetic applies.  Rust `HashMap`s are modelled as association
lists (`insert` overwrites an existing key), and `&mut` functions as state
passing.  Loops whose termination is not structural take an explicit fuel
argument; `none` means the fuel ran out before the loop finished.
-/

/-- `b2 < 2 ^ n → (b1 <<< n) ||| b2 = b1 * 2 ^ n + b2`: bridge between the
bit-level byte concatenation the Rust code writes (`(b1 << 8) | b2`) and its
arithmetic value. -/
theorem shiftLeft_lor_eq_add (n : Nat) :
    ∀ a b : Nat, b < 2 ^ n → (a <<< n) ||| b = a * 2 ^ n + b := by
  induction n with
  | zero =>
    intro a b hb
    have hb0 : b = 0 := Nat.lt_one_iff.mp hb
    subst hb0
    simp [Nat.shiftLeft_eq]
  | succ n ih =>
    intro a b hb
    have h1 : a <<< (n + 1) = Nat.bit false (a <<< n) := by
      simp [Nat.bit, Nat.shiftLeft_eq, Nat.pow_succ]
      ring
    have h2 : b = Nat.bit (b.testBit 0) (b >>> 1) :=
      (Nat.bit_testBit_zero_shiftRight_one b).symm
    rw [h1]
    conv_lhs => rw [h2]
    rw [Nat.lor_bit]
    have hb2 : b >>> 1 < 2 ^ n := by
      rw [Nat.shiftRight_succ, Nat.shiftRight_zero]
      have := Nat.pow_succ 2 n
      omega
    rw [ih a (b >>> 1) hb2]
    rw [Nat.bit_val]
    simp only [Bool.false_or]
    have hb0 : (b.testBit 0).toNat = b % 2 := by
      rcases Nat.mod_two_eq_zero_or_one b with h | h <;>
        simp [Nat.testBit, Nat.shiftRight_zero, Nat.and_one_is_mod, h]
    rw [hb0]
    have hsr : b >>> 1 = b / 2 := by rw [Nat.shiftRight_succ, Nat.shiftRight_zero]
    rw [hsr]
    have hdm := Nat.div_add_mod b 2
    have hps := Nat.pow_succ 2 n
    ring_nf
    omega

/-- Specialisation of `shiftLeft_lor_eq_add` to byte concatenation. -/
theorem lor_byte_eq (b1 b2 : Nat) (h : b2 < 256) :
    (b1 <<< 8) ||| b2 = b1 * 256 + b2 :=
  shiftLeft_lor_eq_add 8 b1 b2 h

/-- Pointwise update of a function modelling an in-place array write. -/
def updf (f : Nat → Nat) (k v : Nat) : Nat → Nat :=
  fun x => if x = k then v else f x

theorem updf_same (f : Nat → Nat) (k v : Nat) : updf f k v k = v := by
  simp [updf]

theorem updf_other (f : Nat → Nat) (k v x : Nat) (h : x ≠ k) :
    updf f k v x = f x := by
  simp [updf, h]

/-! ## `src/asml_vm/src/opcodes.rs` -/

/-- The `OpCode` enum, in source declaration order, so that the position of each
constructor is its `#[repr(u8)]` discriminant (`NOOP = 0`, ..., `DEBUG = 32`,
`End = 33`). -/
inductive OpCode where
  | NOOP
  | ADDA | ADDI | ADDR
  | ANDA | ANDI | ANDR
  | ORA | ORI | ORR
  | XORA | XORI | XORR
  | ROTR | ROTL
  | CALLA | CALLR | RTN
  | HALT
  | JMP | JMPA
  | LDSPA | LDSPI | LDSPR
  | LOADA | LOADI | LOADR
  | STRA | STRR
  | XFER
  | POP | PUSH
  | DEBUG
  | End
deriving DecidableEq, Repr

/-- `OpCode as u8`: the enum discriminant. -/
def OpCode.toByte : OpCode → Nat
  | .NOOP => 0
  | .ADDA => 1 | .ADDI => 2 | .ADDR => 3
  | .ANDA => 4 | .ANDI => 5 | .ANDR => 6
  | .ORA => 7 | .ORI => 8 | .ORR => 9
  | .XORA => 10 | .XORI => 11 | .XORR => 12
  | .ROTR => 13 | .ROTL => 14
  | .CALLA => 15 | .CALLR => 16 | .RTN => 17
  | .HALT => 18
  | .JMP => 19 | .JMPA => 20
  | .LDSPA => 21 | .LDSPI => 22 | .LDSPR => 23
  | .LOADA => 24 | .LOADI => 25 | .LOADR => 26
  | .STRA => 27 | .STRR => 28
  | .XFER => 29
  | .POP => 30 | .PUSH => 31
  | .DEBUG => 32
  | .End => 33

/-- `impl From<u8> for OpCode`: values above `OpCode::End as u8` (= 33) map to
`NOOP`; values `0..=33` are the numeric reinterpretation (`transmute`) of the
byte as the enum. -/
def OpCode.fromByte (i : Nat) : OpCode :=
  if i > OpCode.End.toByte then .NOOP
  else match i with
  | 0 => .NOOP
  | 1 => .ADDA | 2 => .ADDI | 3 => .ADDR
  | 4 => .ANDA | 5 => .ANDI | 6 => .ANDR
  | 7 => .ORA | 8 => .ORI | 9 => .ORR
  | 10 => .XORA | 11 => .XORI | 12 => .XORR
  | 13 => .ROTR | 14 => .ROTL
  | 15 => .CALLA | 16 => .CALLR | 17 => .RTN
  | 18 => .HALT
  | 19 => .JMP | 20 => .JMPA
  | 21 => .LDSPA | 22 => .LDSPI | 23 => .LDSPR
  | 24 => .LOADA | 25 => .LOADI | 26 => .LOADR
  | 27 => .STRA | 28 => .STRR
  | 29 => .XFER
  | 30 => .POP | 31 => .PUSH
  | 32 => .DEBUG
  | _ => .End

/-! ## `src/asml_vm/src/lib.rs`: constants and the `VM` state -/

def NUM_OF_MEMORY_CELLS : Nat := 65536

/-- `PRINTER_ADDR = NUM_OF_MEMORY_CELLS - 3 = 0xFFFD`. -/
def PRINTER_ADDR : Nat := NUM_OF_MEMORY_CELLS - 3

def REG_A : Nat := 0xA
def REG_B : Nat := 0xB
def REG_C : Nat := 0xC
def REG_D : Nat := 0xD

def is_double_reg (r : Nat) : Bool := REG_A ≤ r ∧ r ≤ REG_D

def reg_width (r : Nat) : Nat := if is_double_reg r then 2 else 1

/-- One code section handed to the VM loader (`CodeSection`). -/
structure CodeSection where
  org : Nat
  code : List Nat
deriving DecidableEq, Repr

/-- The `VM` struct.  `registers` models the 10-entry `Vec<u8>`, `memory` the
65536-entry `Vec<u8>`; `output`/`printer` are the two `String` accumulators.
The interactive debugger console is I/O outside the machine state; `DEBUG`
only sets `debug_mode`. -/
structure VM where
  registers : Nat → Nat
  memory : Nat → Nat
  pc : Nat
  sp : Nat
  output : List Char
  printer : List Char
  debug_mode : Bool

def VM.new : VM :=
  { registers := fun _ => 0
    memory := fun _ => 0
    pc := 0
    sp := 0
    output := []
    printer := []
    debug_mode := false }

/-- Inner loop of `install_code`: `memory[i as u16 + org] = b` for each byte. -/
def install_bytes (m : Nat → Nat) (org : Nat) : List Nat → Nat → (Nat → Nat)
  | [], _ => m
  | b :: rest, i => install_bytes (updf m ((i % 65536 + org) % 65536) b) org rest (i + 1)

def install_sections (m : Nat → Nat) : List CodeSection → (Nat → Nat)
  | [] => m
  | s :: rest => install_sections (install_bytes m s.org s.code 0) rest

/-- `reset`: `pc = (memory[0xFFFE] << 8) | memory[0xFFFF]`. -/
def VM.reset (vm : VM) : VM :=
  { vm with pc := (vm.memory 0xFFFE <<< 8) ||| vm.memory 0xFFFF }

/-- `install_code` copies every section into memory, then calls `reset`. -/
def VM.install_code (vm : VM) (code : List CodeSection) : VM :=
  VM.reset { vm with memory := install_sections vm.memory code }

/-- `fetch_byte`: read `memory[pc]`, then `pc += 1` (u16 wrap). -/
def VM.fetch_byte (vm : VM) : Nat × VM :=
  (vm.memory vm.pc, { vm with pc := (vm.pc + 1) % 65536 })

/-- `fetch_u16`: two `fetch_byte`s combined big-endian. -/
def VM.fetch_u16 (vm : VM) : Nat × VM :=
  let f1 := vm.fetch_byte
  let f2 := f1.2.fetch_byte
  ((f1.1 <<< 8) ||| f2.1, f2.2)

/-! Register manipulation -/

def VM.read_single_reg (vm : VM) (r : Nat) : Nat := vm.registers r

/-- `write_single_reg` stores a `u8` (callers cast with `as u8`, modelled at
the call sites by `% 256`). -/
def VM.write_single_reg (vm : VM) (r data : Nat) : VM :=
  { vm with registers := updf vm.registers r data }

def VM.read_double_reg (vm : VM) (r : Nat) : Nat :=
  if r = REG_A then (vm.registers 2 <<< 8) ||| vm.registers 3
  else if r = REG_B then (vm.registers 4 <<< 8) ||| vm.registers 5
  else if r = REG_C then (vm.registers 6 <<< 8) ||| vm.registers 7
  else if r = REG_D then (vm.registers 8 <<< 8) ||| vm.registers 9
  else 0

def VM.write_double_reg (vm : VM) (r data : Nat) : VM :=
  if r = REG_A then
    { vm with registers := updf (updf vm.registers 2 ((data >>> 8) % 256)) 3 (data % 256) }
  else if r = REG_B then
    { vm with registers := updf (updf vm.registers 4 ((data >>> 8) % 256)) 5 (data % 256) }
  else if r = REG_C then
    { vm with registers := updf (updf vm.registers 6 ((data >>> 8) % 256)) 7 (data % 256) }
  else if r = REG_D then
    { vm with registers := updf (updf vm.registers 8 ((data >>> 8) % 256)) 9 (data % 256) }
  else vm

def VM.read_reg (vm : VM) (r : Nat) : Nat :=
  if is_double_reg r then vm.read_double_reg r else vm.read_single_reg r

def VM.write_reg (vm : VM) (r data : Nat) : VM :=
  if is_double_reg r then vm.write_double_reg r data
  else vm.write_single_reg r (data % 256)

/-! Memory manipulation -/

def VM.read_mem (vm : VM) (addr width : Nat) : Nat :=
  if width = 1 then vm.memory addr
  else if width = 2 then (vm.memory addr <<< 8) ||| vm.memory ((addr + 1) % 65536)
  else 0

def VM.write_mem (vm : VM) (addr width data : Nat) : VM :=
  if width = 1 then { vm with memory := updf vm.memory addr (data % 256) }
  else if width = 2 then
    { vm with memory := updf (updf vm.memory addr ((data >>> 8) % 256))
                             ((addr + 1) % 65536) (data % 256) }
  else vm

def VM.read_mem_u8 (vm : VM) (addr : Nat) : Nat := vm.read_mem addr 1
def VM.write_mem_u8 (vm : VM) (addr data : Nat) : VM := vm.write_mem addr 1 data
def VM.read_mem_u16 (vm : VM) (addr : Nat) : Nat := vm.read_mem addr 2
def VM.write_mem_u16 (vm : VM) (addr data : Nat) : VM := vm.write_mem addr 2 data

/-! Instructions -/

def VM.inst_loadi (vm : VM) (r data : Nat) : VM := vm.write_reg r data

def VM.inst_loada (vm : VM) (r addr : Nat) : VM :=
  vm.write_reg r (vm.read_mem addr (reg_width r))

def VM.inst_loadr (vm : VM) (dest src : Nat) : VM :=
  vm.inst_loada dest (vm.read_reg src)

def VM.inst_stra (vm : VM) (src addr : Nat) : VM :=
  vm.write_mem addr (reg_width src) (vm.read_reg src)

def VM.inst_strr (vm : VM) (src dest : Nat) : VM :=
  vm.inst_stra dest (vm.read_reg src)

def VM.inst_xfer (vm : VM) (dest src : Nat) : VM :=
  vm.write_reg dest (vm.read_reg src)

/-- `simple_instr_imm!(inst_addi, +)` (u16 `+` wraps in release mode). -/
def VM.inst_addi (vm : VM) (r data : Nat) : VM :=
  vm.write_reg r ((vm.read_reg r + data) % 65536)

def VM.inst_adda (vm : VM) (r addr : Nat) : VM :=
  let data := vm.read_mem addr (reg_width r)
  vm.write_reg r ((vm.read_reg r + data) % 65536)

def VM.inst_addr (vm : VM) (dest src : Nat) : VM :=
  let data1 := vm.read_reg src
  let data2 := vm.read_reg dest
  vm.write_reg dest ((data1 + data2) % 65536)

def VM.inst_ori (vm : VM) (r data : Nat) : VM :=
  vm.write_reg r (vm.read_reg r ||| data)

def VM.inst_ora (vm : VM) (r addr : Nat) : VM :=
  let data := vm.read_mem addr (reg_width r)
  vm.write_reg r (vm.read_reg r ||| data)

def VM.inst_orr (vm : VM) (dest src : Nat) : VM :=
  vm.write_reg dest (vm.read_reg src ||| vm.read_reg dest)

def VM.inst_andi (vm : VM) (r data : Nat) : VM :=
  vm.write_reg r (vm.read_reg r &&& data)

def VM.inst_anda (vm : VM) (r addr : Nat) : VM :=
  let data := vm.read_mem addr (reg_width r)
  vm.write_reg r (vm.read_reg r &&& data)

def VM.inst_andr (vm : VM) (dest src : Nat) : VM :=
  vm.write_reg dest (vm.read_reg src &&& vm.read_reg dest)

def VM.inst_xori (vm : VM) (r data : Nat) : VM :=
  vm.write_reg r (vm.read_reg r ^^^ data)

def VM.inst_xora (vm : VM) (r addr : Nat) : VM :=
  let data := vm.read_mem addr (reg_width r)
  vm.write_reg r (vm.read_reg r ^^^ data)

def VM.inst_xorr (vm : VM) (dest src : Nat) : VM :=
  vm.write_reg dest (vm.read_reg src ^^^ vm.read_reg dest)

/-- `u16::rotate_right` (rotation distance taken mod the bit width). -/
def rotate_right16 (v p : Nat) : Nat :=
  ((v >>> (p % 16)) ||| (v <<< (16 - p % 16))) % 65536

def rotate_left16 (v p : Nat) : Nat :=
  ((v <<< (p % 16)) ||| (v >>> (16 - p % 16))) % 65536

def VM.inst_rotr (vm : VM) (dest places : Nat) : VM :=
  if is_double_reg dest then
    vm.write_double_reg dest (rotate_right16 (vm.read_double_reg dest) places)
  else vm

def VM.inst_rotl (vm : VM) (dest places : Nat) : VM :=
  if is_double_reg dest then
    vm.write_double_reg dest (rotate_left16 (vm.read_double_reg dest) places)
  else vm

def VM.inst_jmp (vm : VM) (r pc : Nat) : VM :=
  if vm.read_reg r = vm.read_reg 0 then { vm with pc := pc } else vm

def VM.inst_jmpa (vm : VM) (pc : Nat) : VM := { vm with pc := pc }

def VM.inst_ldspi (vm : VM) (addr : Nat) : VM := { vm with sp := addr }

def VM.inst_ldspa (vm : VM) (addr : Nat) : VM :=
  { vm with sp := vm.read_mem_u16 addr }

def VM.inst_ldspr (vm : VM) (r : Nat) : VM := { vm with sp := vm.read_reg r }

/-- `push_u16`: `sp -= 2` (u16 wrap in release mode), then write at the new
`sp`. -/
def VM.push_u16 (vm : VM) (data : Nat) : VM :=
  let vm1 : VM := { vm with sp := (vm.sp + 65534) % 65536 }
  vm1.write_mem_u16 vm1.sp data

def VM.push_u8 (vm : VM) (data : Nat) : VM :=
  let vm1 : VM := { vm with sp := (vm.sp + 65535) % 65536 }
  vm1.write_mem_u8 vm1.sp data

/-- `pop_u16`: read at `sp`, then `sp += 2` (u16 wrap). -/
def VM.pop_u16 (vm : VM) : Nat × VM :=
  (vm.read_mem_u16 vm.sp, { vm with sp := (vm.sp + 2) % 65536 })

def VM.pop_u8 (vm : VM) : Nat × VM :=
  (vm.read_mem_u8 vm.sp, { vm with sp := (vm.sp + 1) % 65536 })

def VM.inst_push (vm : VM) (r : Nat) : VM :=
  if is_double_reg r then vm.push_u16 (vm.read_double_reg r)
  else vm.push_u8 (vm.read_single_reg r)

def VM.inst_pop (vm : VM) (r : Nat) : VM :=
  if is_double_reg r then
    let p := vm.pop_u16
    p.2.write_double_reg r p.1
  else
    let p := vm.pop_u8
    p.2.write_single_reg r p.1

def VM.inst_calla (vm : VM) (addr : Nat) : VM :=
  { vm.push_u16 vm.pc with pc := addr }

def VM.inst_callr (vm : VM) (r : Nat) : VM :=
  let vm1 := vm.push_u16 vm.pc
  { vm1 with pc := vm1.read_reg r }

def VM.inst_rtn (vm : VM) : VM :=
  let p := vm.pop_u16
  { p.2 with pc := p.1 }

/-! The run loop -/

/-- The printer check at the end of each `run`-loop iteration: if
`memory[PRINTER_ADDR] > 0`, push it (as a `char`) onto the printer buffer and
clear the cell. -/
def VM.drain_printer (vm : VM) : VM :=
  if vm.memory PRINTER_ADDR > 0 then
    { vm with printer := vm.printer ++ [Char.ofNat (vm.memory PRINTER_ADDR)]
              memory := updf vm.memory PRINTER_ADDR 0 }
  else vm

/-- The dispatch `match` of `run`, minus the `HALT => break` arm and the
`_ => return Err` arm: `some` is the effect of one instruction (operand fetches
included), `none` means the opcode has no dispatch arm (`NOOP`, `End`) or is
`HALT` (handled by `step`). -/
def VM.exec_opcode (vm : VM) (op : OpCode) : Option VM :=
  match op with
  | .LOADI => let a := vm.fetch_byte; let b := a.2.fetch_u16
              some (b.2.inst_loadi a.1 b.1)
  | .LOADA => let a := vm.fetch_byte; let b := a.2.fetch_u16
              some (b.2.inst_loada a.1 b.1)
  | .LOADR => let a := vm.fetch_byte; let b := a.2.fetch_byte
              some (b.2.inst_loadr a.1 b.1)
  | .STRA => let a := vm.fetch_byte; let b := a.2.fetch_u16
             some (b.2.inst_stra a.1 b.1)
  | .STRR => let a := vm.fetch_byte; let b := a.2.fetch_byte
             some (b.2.inst_strr a.1 b.1)
  | .XFER => let a := vm.fetch_byte; let b := a.2.fetch_byte
             some (b.2.inst_xfer a.1 b.1)
  | .ADDI => let a := vm.fetch_byte; let b := a.2.fetch_u16
             some (b.2.inst_addi a.1 b.1)
  | .ADDA => let a := vm.fetch_byte; let b := a.2.fetch_u16
             some (b.2.inst_adda a.1 b.1)
  | .ADDR => let a := vm.fetch_byte; let b := a.2.fetch_byte
             some (b.2.inst_addr a.1 b.1)
  | .ORI => let a := vm.fetch_byte; let b := a.2.fetch_u16
            some (b.2.inst_ori a.1 b.1)
  | .ORA => let a := vm.fetch_byte; let b := a.2.fetch_u16
            some (b.2.inst_ora a.1 b.1)
  | .ORR => let a := vm.fetch_byte; let b := a.2.fetch_byte
            some (b.2.inst_orr a.1 b.1)
  | .ANDI => let a := vm.fetch_byte; let b := a.2.fetch_u16
             some (b.2.inst_andi a.1 b.1)
  | .ANDA => let a := vm.fetch_byte; let b := a.2.fetch_u16
             some (b.2.inst_anda a.1 b.1)
  | .ANDR => let a := vm.fetch_byte; let b := a.2.fetch_byte
             some (b.2.inst_andr a.1 b.1)
  | .XORI => let a := vm.fetch_byte; let b := a.2.fetch_u16
             some (b.2.inst_xori a.1 b.1)
  | .XORA => let a := vm.fetch_byte; let b := a.2.fetch_u16
             some (b.2.inst_xora a.1 b.1)
  | .XORR => let a := vm.fetch_byte; let b := a.2.fetch_byte
             some (b.2.inst_xorr a.1 b.1)
  | .ROTR => let a := vm.fetch_byte; let b := a.2.fetch_byte
             some (b.2.inst_rotr a.1 b.1)
  | .ROTL => let a := vm.fetch_byte; let b := a.2.fetch_byte
             some (b.2.inst_rotl a.1 b.1)
  | .JMP => let a := vm.fetch_byte; let b := a.2.fetch_u16
            some (b.2.inst_jmp a.1 b.1)
  | .JMPA => let a := vm.fetch_u16
             some (a.2.inst_jmpa a.1)
  | .LDSPI => let a := vm.fetch_u16
              some (a.2.inst_ldspi a.1)
  | .LDSPA => let a := vm.fetch_u16
              some (a.2.inst_ldspa a.1)
  | .LDSPR => let a := vm.fetch_byte
              some (a.2.inst_ldspr a.1)
  | .PUSH => let a := vm.fetch_byte
             some (a.2.inst_push a.1)
  | .POP => let a := vm.fetch_byte
            some (a.2.inst_pop a.1)
  | .CALLA => let a := vm.fetch_u16
              some (a.2.inst_calla a.1)
  | .CALLR => let a := vm.fetch_byte
              some (a.2.inst_callr a.1)
  | .RTN => some vm.inst_rtn
  | .DEBUG => some { vm with debug_mode := true }
  | .NOOP => none
  | .HALT => none
  | .End => none

inductive StepResult where
  | next (vm : VM)
  | halted (vm : VM)
  | fault (vm : VM) (msg : String)

/-- One iteration of the `run` loop: fetch the opcode byte, convert it with
`OpCode::from`, dispatch.  `HALT` breaks out of the loop; an opcode with no
dispatch arm returns the unknown-opcode error; every other instruction falls
through to the printer check. -/
def VM.step (vm : VM) : StepResult :=
  if OpCode.fromByte vm.fetch_byte.1 = .HALT then .halted vm.fetch_byte.2
  else match vm.fetch_byte.2.exec_opcode (OpCode.fromByte vm.fetch_byte.1) with
    | some vm2 => .next vm2.drain_printer
    | none => .fault vm.fetch_byte.2 "Unknown opcode encountered"

inductive RunResult where
  | ok (vm : VM)
  | fault (vm : VM) (msg : String)
  | outOfFuel (vm : VM)

/-- `run`, with fuel: on `HALT` the loop exits and `output += printer`; a
fault returns the error immediately with no flush. -/
def VM.runFuel : Nat → VM → RunResult
  | 0, vm => .outOfFuel vm
  | n + 1, vm =>
    match vm.step with
    | .next v => VM.runFuel n v
    | .halted v => .ok { v with output := v.output ++ v.printer }
    | .fault v m => .fault v m

/-- Observable output of a finished run (`None` if the run faulted or ran out
of fuel). -/
def run_output : RunResult → Option (List Char)
  | .ok v => some v.output
  | _ => none

/-! ## `src/asml/src/compiler/token.rs` -/

inductive TokenType where
  | ILLEGAL | EOF | COMMENT | END_INST | COMMA | IMMEDIATE
  | IDENT | LABEL | NUMBER | STRING | REGISTER
  | NOOP | LOAD | STR | XFER | ADD | OR | AND | XOR
  | ROTR | ROTL | JMP | HALT | JMPA | LDSP | PUSH | POP
  | CALL | RTN | RMB | ORG | FCB | FDB | DEBUG
deriving DecidableEq, Repr

/-- `TokenType::lookup_ident`: the static keyword table. -/
def TokenType.lookup_ident (s : String) : TokenType :=
  match s with
  | "NOOP" => .NOOP
  | "LOAD" => .LOAD
  | "STR" => .STR
  | "XFER" => .XFER
  | "ADD" => .ADD
  | "OR" => .OR
  | "AND" => .AND
  | "XOR" => .XOR
  | "ROTR" => .ROTR
  | "ROTL" => .ROTL
  | "JMP" => .JMP
  | "HALT" => .HALT
  | "JMPA" => .JMPA
  | "LDSP" => .LDSP
  | "PUSH" => .PUSH
  | "POP" => .POP
  | "CALL" => .CALL
  | "RTN" => .RTN
  | "RMB" => .RMB
  | "ORG" => .ORG
  | "FCB" => .FCB
  | "FDB" => .FDB
  | "DEBUG" => .DEBUG
  | _ => .IDENT

structure Token where
  name : TokenType
  literal : String
  line : Nat
  col : Nat
deriving DecidableEq, Repr

def Token.with_literal (t : TokenType) (lit : String) (line col : Nat) : Token :=
  { name := t, literal := lit, line := line, col := col }

def Token.simple (t : TokenType) (line col : Nat) : Token :=
  Token.with_literal t "" line col

/-! ## `src/asml/src/compiler/lexer.rs`

The byte source is a finite `List Nat`; an exhausted source keeps producing
`0` (`unwrap_or(Ok(0)).unwrap_or(0)`).  The four `while` loops of the lexer
share one shape ("while P(cur_ch) { collect cur_ch; read_char() }"); they are
modelled by the single fueled `scan_loop`, whose `none` result means the loop
did not finish within the given fuel. -/

structure Lexer where
  reader : List Nat
  cur_ch : Nat
  peek_ch : Nat
  line : Nat
  col : Nat
deriving DecidableEq, Repr

/-- Pull one byte off the source (`0` when exhausted). -/
def takeByte : List Nat → Nat × List Nat
  | [] => (0, [])
  | b :: rest => (b, rest)

/-- `read_char`: shift `peek_ch` into `cur_ch`, pull the next byte into
`peek_ch`, and if that byte is CR pull once more (CR filtering). -/
def Lexer.read_char (l : Lexer) : Lexer :=
  let p := takeByte l.reader
  if p.1 = 13 then
    let q := takeByte p.2
    { reader := q.2, cur_ch := l.peek_ch, peek_ch := q.1, line := l.line, col := l.col + 1 }
  else
    { reader := p.2, cur_ch := l.peek_ch, peek_ch := p.1, line := l.line, col := l.col + 1 }

/-- `Lexer::new`: two priming `read_char` calls. -/
def Lexer.new (src : List Nat) : Lexer :=
  (Lexer.read_char (Lexer.read_char
    { reader := src, cur_ch := 0, peek_ch := 0, line := 1, col := 0 }))

def Lexer.reset_pos (l : Lexer) : Lexer :=
  { l with line := l.line + 1, col := 0 }

/-- `is_whitespace` — note that it includes the newline byte 10. -/
def is_whitespace (ch : Nat) : Bool :=
  ch = 32 ∨ ch = 9 ∨ ch = 10 ∨ ch = 13

def is_letter (ch : Nat) : Bool :=
  (97 ≤ ch ∧ ch ≤ 122) ∨ (65 ≤ ch ∧ ch ≤ 90) ∨ ch = 95 ∨ ch = 36

def is_digit (ch : Nat) : Bool := 48 ≤ ch ∧ ch ≤ 57

def is_hex_digit (ch : Nat) : Bool :=
  (97 ≤ ch ∧ ch ≤ 102) ∨ (65 ≤ ch ∧ ch ≤ 70) ∨ ch = 120

def is_ident (ch : Nat) : Bool :=
  is_letter ch ∨ is_digit ch ∨ ch = 45 ∨ ch = 43

/-- Common shape of the lexer `while P(cur_ch) { push(cur_ch); read_char() }`
loops, with fuel.  Returns the collected bytes and the state at loop exit. -/
def scan_loop (P : Nat → Bool) : Nat → Lexer → Option (List Nat × Lexer)
  | 0, _ => none
  | n + 1, l =>
    if P l.cur_ch then
      match scan_loop P n l.read_char with
      | some (cs, l2) => some (l.cur_ch :: cs, l2)
      | none => none
    else some ([], l)

def strOfBytes (bs : List Nat) : String := String.mk (bs.map Char.ofNat)

/-- `devour_whitespace`. -/
def Lexer.devour_whitespace (fuel : Nat) (l : Lexer) : Option Lexer :=
  (scan_loop is_whitespace fuel l).map (fun p => p.2)

/-- `read_identifier`. -/
def Lexer.read_identifier (fuel : Nat) (l : Lexer) : Option (String × Lexer) :=
  (scan_loop is_ident fuel l).map (fun p => (strOfBytes p.1, p.2))

/-- `read_string`: skip the opening quote, then collect until `cur_ch` is a
double quote.  The loop predicate holds at byte 0, so an exhausted source
never stops it. -/
def Lexer.read_string (fuel : Nat) (l : Lexer) : Option (String × Lexer) :=
  (scan_loop (fun c => !(c = 34)) fuel l.read_char).map (fun p => (strOfBytes p.1, p.2))

def trim_bytes (bs : List Nat) : List Nat :=
  ((bs.dropWhile (fun c => is_whitespace c)).reverse.dropWhile
    (fun c => is_whitespace c)).reverse

/-- `read_single_line_comment`: skip the `;`, collect until newline or NUL,
then trim. -/
def Lexer.read_single_line_comment (fuel : Nat) (l : Lexer) :
    Option (String × Lexer) :=
  (scan_loop (fun c => !(c = 10) && !(c = 0)) fuel l.read_char).map
    (fun p => (strOfBytes (trim_bytes p.1), p.2))

/-- `read_number`. -/
def Lexer.read_number (fuel : Nat) (l : Lexer) : Option (String × Lexer) :=
  (scan_loop (fun c => is_digit c || is_hex_digit c || c = 33) fuel l).map
    (fun p => (strOfBytes p.1, p.2))

/-- `Lexer::next` (the `Iterator` impl), with fuel for the inner loops.  Every
`some` result is the token the Rust code returns together with the successor
lexer state; `none` only means a loop ran out of fuel. -/
def Lexer.next (fuel : Nat) (l : Lexer) : Option (Token × Lexer) :=
  if l.cur_ch = 10 then
    let t := Token.simple .END_INST l.line l.col
    some (t, l.reset_pos.read_char)
  else
    match l.devour_whitespace fuel with
    | none => none
    | some l1 =>
      if l1.cur_ch = 58 then  -- :
        match l1.read_char.read_identifier fuel with
        | none => none
        | some (s, l2) =>
          some (Token.with_literal .LABEL s l2.line l2.col, l2.read_char)
      else if l1.cur_ch = 35 then  -- #
        some (Token.simple .IMMEDIATE l1.line l1.col, l1.read_char)
      else if l1.cur_ch = 44 then  -- ,
        some (Token.simple .COMMA l1.line l1.col, l1.read_char)
      else if l1.cur_ch = 34 then  -- double quote
        match l1.read_string fuel with
        | none => none
        | some (s, l2) =>
          some (Token.with_literal .STRING s l2.line l2.col, l2.read_char)
      else if l1.cur_ch = 59 then  -- ;
        let col := l1.col
        match l1.read_single_line_comment fuel with
        | none => none
        | some (s, l2) =>
          some (Token.with_literal .COMMENT s l2.line col, l2.reset_pos.read_char)
      else if l1.cur_ch = 37 then  -- %
        let l2 := l1.read_char
        if l2.cur_ch = 83 ∧ l2.peek_ch = 80 then  -- S P
          let l3 := l2.read_char
          some (Token.with_literal .REGISTER "SP" l3.line l3.col, l3.read_char)
        else
          some (Token.with_literal .REGISTER (strOfBytes [l2.cur_ch]) l2.line l2.col,
                l2.read_char)
      else if l1.cur_ch = 0 then
        some (Token.simple .EOF l1.line l1.col, l1.read_char)
      else if is_letter l1.cur_ch then
        match l1.read_identifier fuel with
        | none => none
        | some (lit, l2) =>
          some (Token.with_literal (TokenType.lookup_ident lit) lit l2.line l2.col, l2)
      else if is_digit l1.cur_ch then
        match l1.read_number fuel with
        | none => none
        | some (lit, l2) =>
          some (Token.with_literal .NUMBER lit l2.line l2.col, l2)
      else
        some (Token.simple .ILLEGAL l1.line l1.col, l1.read_char)

/-- Whether some fuel lets `next` finish (i.e. whether the Rust `next()` call
terminates). -/
def nextTerminates (l : Lexer) : Prop :=
  ∃ n, (Lexer.next n l).isSome = true

/-- Tokenize a whole source for concrete test inputs: collect tokens until the
first EOF token (the Rust iterator never ends on its own). -/
def lexTokens : Nat → Lexer → List Token
  | 0, _ => []
  | n + 1, l =>
    match Lexer.next (n + 1) l with
    | none => []
    | some (t, l2) => if t.name = .EOF then [t] else t :: lexTokens n l2

/-! ## `src/asml/src/compiler/parser/program.rs` -/

structure LabelReplace where
  label : String
  offset : Int
deriving DecidableEq, Repr

/-- `LabelLinkMap = HashMap<u16, LabelReplace>`, as an association list;
`insertLink` is `HashMap::insert` (overwrites an existing key). -/
def LabelLinkMap := List (Nat × LabelReplace)

def insertLink (k : Nat) (v : LabelReplace) :
    List (Nat × LabelReplace) → List (Nat × LabelReplace)
  | [] => [(k, v)]
  | (k2, v2) :: rest =>
    if k2 = k then (k, v) :: rest else (k2, v2) :: insertLink k v rest

def lookupLink (m : List (Nat × LabelReplace)) (k : Nat) : Option LabelReplace :=
  match m with
  | [] => none
  | (k2, v) :: rest => if k2 = k then some v else lookupLink rest k

/-- `LabelMap = HashMap<String, u16>`, as an association list. -/
def insertLabel (k : String) (v : Nat) :
    List (String × Nat) → List (String × Nat)
  | [] => [(k, v)]
  | (k2, v2) :: rest =>
    if k2 = k then (k, v) :: rest else (k2, v2) :: insertLabel k v rest

def lookupLabel (m : List (String × Nat)) (k : String) : Option Nat :=
  match m with
  | [] => none
  | (k2, v) :: rest => if k2 = k then some v else lookupLabel rest k

structure CodePart where
  bytes : List Nat
  start_pc : Nat
  pc : Nat
  link_map : List (Nat × LabelReplace)
deriving DecidableEq, Repr

def CodePart.new (pc : Nat) : CodePart :=
  { bytes := [], link_map := [], start_pc := pc, pc := pc }

structure Program where
  parts : List CodePart
  part_i : Nat
  labels : List (String × Nat)
deriving DecidableEq, Repr

def Program.new : Program :=
  { parts := [CodePart.new 0], part_i := 0, labels := [] }

/-- `self.parts[self.part_i]` (always in bounds in the Rust code). -/
def Program.activePart (p : Program) : CodePart :=
  p.parts.getD p.part_i (CodePart.new 0)

def Program.setActivePart (p : Program) (c : CodePart) : Program :=
  { p with parts := p.parts.set p.part_i c }

def Program.pc (p : Program) : Nat := p.activePart.pc

/-- `append_code`: extend the byte buffer of the active part and advance its write
cursor (`wrapping_add`). -/
def Program.append_code (p : Program) (b : List Nat) : Program :=
  let part := p.activePart
  p.setActivePart
    { part with bytes := part.bytes ++ b
                pc := (part.pc + b.length) % 65536 }

/-- `add_label`: record the current write cursor of the active part under `name`. -/
def Program.add_label (p : Program) (name : String) : Program :=
  { p with labels := insertLabel name p.activePart.pc p.labels }

/-- `add_link`: register a pending link at region-relative offset
`pc() - start_pc + pc_offset` (u16 arithmetic). -/
def Program.add_link (p : Program) (pc_offset : Nat) (name : String)
    (offset : Int) : Program :=
  p.setActivePart
    { p.activePart with
        link_map :=
          insertLink (((p.pc + 65536 - p.activePart.start_pc) % 65536 + pc_offset) % 65536)
            ⟨name, offset⟩ p.activePart.link_map }

def Program.add_code_part (p : Program) (pc : Nat) : Program :=
  { p with parts := p.parts ++ [CodePart.new pc], part_i := p.part_i + 1 }

def Program.to_code (p : Program) : List CodeSection :=
  p.parts.map (fun part => { org := part.start_pc, code := part.bytes })

/-- Uppercase hex digit. -/
def hexDigit (n : Nat) : Char :=
  if n < 10 then Char.ofNat (48 + n) else Char.ofNat (65 + (n - 10))

/-- `{:04X}` for values below 0x10000. -/
def hex4 (n : Nat) : String :=
  String.mk [hexDigit (n / 4096 % 16), hexDigit (n / 256 % 16),
             hexDigit (n / 16 % 16), hexDigit (n % 16)]

def overlapError (a b c : Nat) : String :=
  "overlapping address regions:\nOrigin 0x" ++ hex4 a ++ " goes to 0x" ++
    hex4 b ++ "\nOrigin 0x" ++ hex4 c ++ " begins inside region"

/-- The pair check inside the loop of `validate` (which stops before the last
element): error if the `[origin, origin+length)` range of a region runs past the origin
of the next region. -/
def checkOverlap : List CodePart → Option String
  | [] => none
  | [_] => none
  | a :: b :: rest =>
    if (a.start_pc + a.bytes.length % 65536) % 65536 > b.start_pc then
      some (overlapError a.start_pc
        ((a.start_pc + a.bytes.length % 65536) % 65536) b.start_pc)
    else checkOverlap (b :: rest)

/-- `validate`: sort the parts by `start_pc` (the Rust `sort_by_key` is stable;
`List.insertionSort` is the stable sort available here), then run the
adjacent-pair overlap check.  Returns the error (if any) and the program with
its parts sorted, mirroring the in-place sort. -/
def Program.validate (p : Program) : Option String × Program :=
  (checkOverlap (p.parts.insertionSort (fun a b => a.start_pc ≤ b.start_pc)),
   { p with parts := p.parts.insertionSort (fun a b => a.start_pc ≤ b.start_pc) })

/-! ## `src/asml/src/compiler/parser/mod.rs`: `parse_u16`, i16 parsing and
`parse_address` -/

inductive ParserError where
  | InvalidCode (s : String)
  | ExpectedToken (s : String)
  | ValidationError (s : String)
deriving DecidableEq, Repr

def digitsToNat : List Char → Option Nat
  | [] => none
  | cs => cs.foldlM (fun acc c =>
      if 48 ≤ c.toNat ∧ c.toNat ≤ 57 then some (acc * 10 + (c.toNat - 48))
      else none) 0

def hexDigitVal (c : Char) : Option Nat :=
  if 48 ≤ c.toNat ∧ c.toNat ≤ 57 then some (c.toNat - 48)
  else if 97 ≤ c.toNat ∧ c.toNat ≤ 102 then some (c.toNat - 87)
  else if 65 ≤ c.toNat ∧ c.toNat ≤ 70 then some (c.toNat - 55)
  else none

def hexToNat : List Char → Option Nat
  | [] => none
  | cs => cs.foldlM (fun acc c =>
      (hexDigitVal c).map (fun d => acc * 16 + d)) 0

/-- `u16::from_str_radix(s, 16)` with range check. -/
def parse_u16_hex (cs : List Char) : Option Nat :=
  match hexToNat cs with
  | some n => if n ≤ 65535 then some n else none
  | none => none

/-- `str::parse::<u16>()`: optional `+` sign, decimal digits, range check. -/
def parse_u16_dec (cs : List Char) : Option Nat :=
  let body := match cs with
    | '+' :: rest => digitsToNat rest
    | rest => digitsToNat rest
  match body with
  | some n => if n ≤ 65535 then some n else none
  | none => none

/-- `parse_u16`: `!`-prefixed hex, `0x`-prefixed hex, else decimal. -/
def parse_u16 (s : String) : Option Nat :=
  match s.toList with
  | '!' :: rest => parse_u16_hex (rest.dropWhile (fun c => c = '!'))
  | '0' :: 'x' :: rest => parse_u16_hex rest
  | cs => parse_u16_dec cs

/-- `str::parse::<i16>()`: optional sign, decimal digits, range check. -/
def parse_i16 (s : String) : Option Int :=
  match s.toList with
  | '+' :: rest => match digitsToNat rest with
    | some n => if n ≤ 32767 then some (Int.ofNat n) else none
    | none => none
  | '-' :: rest => match digitsToNat rest with
    | some n => if n ≤ 32768 then some (-(Int.ofNat n)) else none
    | none => none
  | rest => match digitsToNat rest with
    | some n => if n ≤ 32767 then some (Int.ofNat n) else none
    | none => none

/-- `str::find(char)`: byte index of the first occurrence (the sources here
are ASCII, so char index = byte index), `unwrap_or_default` gives 0. -/
def findCharIdx (c : Char) (s : String) : Nat :=
  ((s.toList.findIdx? (fun x => x = c)).getD 0)

/-- `i16 as u16`: twos-complement cast. -/
def i16_as_u16 (i : Int) : Nat := (i % 65536).toNat

/-- `parse_address`, for the token category the claims exercise.  `NUMBER` and
`STRING` resolve immediately; `IDENT` splits at the first `+`/`-` into label
and signed offset, resolves `"$"` against the write cursor, and otherwise
registers a pending link and yields the zero placeholder.  The Rust
`_ => unimplemented!()` arm (a panic) is modelled as an error. -/
def parse_address (tok : Token) (pcoffset : Nat) (prog : Program) :
    Except ParserError (Nat × Program) :=
  match tok.name with
  | .NUMBER =>
    match parse_u16 tok.literal with
    | some n => .ok (n, prog)
    | none => .error (.InvalidCode ("invalid address on line " ++ toString tok.line))
  | .STRING =>
    match tok.literal.toList with
    | [] => .ok (0, prog)
    | [c] => .ok (c.toNat, prog)
    | [c1, c2] => .ok ((c1.toNat <<< 8) + c2.toNat, prog)
    | _ => .error (.InvalidCode ("string too long on line " ++ toString tok.line))
  | .IDENT =>
    let lit := tok.literal
    let add_index := findCharIdx '+' lit
    let sub_index := findCharIdx '-' lit
    if add_index > 0 ∨ sub_index > 0 then
      let ind := if add_index > 0 then add_index else sub_index
      let label := String.mk (lit.toList.take ind)
      match parse_i16 (String.mk (lit.toList.drop ind)) with
      | none =>
        .error (.InvalidCode ("invalid address offset on line " ++ toString tok.line))
      | some offset =>
        if label = "$" then .ok ((prog.pc + i16_as_u16 offset) % 65536, prog)
        else .ok (0, prog.add_link pcoffset label offset)
    else
      if lit = "$" then .ok ((prog.pc + i16_as_u16 0) % 65536, prog)
      else .ok (0, prog.add_link pcoffset lit 0)
  | _ => .error (.InvalidCode "parse_address: unimplemented token type")

/-- The byte emission of `parse_no_args` (`self.prog.append_code(&[c as u8])`);
the rest of that function is token-stream bookkeeping (`expect_token`). -/
def parse_no_args_emit (p : Program) (c : OpCode) : Program :=
  p.append_code [c.toByte]

/-! ## `src/asml/src/compiler/linker.rs` -/

/-- Inner loop of `link` over the pending links of one part: patch the two bytes at
each recorded offset with `label_address + offset` (big-endian), stopping with
an error at the first label missing from the table.  Patches made before the
failure stay in the buffer (the Rust code mutates `part.bytes` in place). -/
def linkPart (labels : List (String × Nat)) :
    List (Nat × LabelReplace) → List Nat → Option String × List Nat
  | [], bytes => (none, bytes)
  | (loc, lr) :: rest, bytes =>
    match lookupLabel labels lr.label with
    | some memloc =>
      let newloc := (memloc + i16_as_u16 lr.offset) % 65536
      linkPart labels rest ((bytes.set loc ((newloc >>> 8) % 256)).set (loc + 1) (newloc % 256))
    | none => (some ("label " ++ lr.label ++ " is not defined"), bytes)

def linkParts (labels : List (String × Nat)) :
    List CodePart → Option String × List CodePart
  | [] => (none, [])
  | part :: rest =>
    match (linkPart labels part.link_map part.bytes).1 with
    | some msg =>
      (some msg,
       { part with bytes := (linkPart labels part.link_map part.bytes).2 } :: rest)
    | none =>
      ((linkParts labels rest).1,
       { part with bytes := (linkPart labels part.link_map part.bytes).2 }
         :: (linkParts labels rest).2)

/-- `link`: resolve every pending link of every part against the label table.
Models the Rust `&mut Program` + `Result` pair as (error, final program). -/
def link (p : Program) : Option String × Program :=
  ((linkParts p.labels p.parts).1, { p with parts := (linkParts p.labels p.parts).2 })


/-! ## VM lemmas: the printer and output accumulators are only touched by the
printer check and the HALT flush -/

theorem write_single_reg_printer (vm : VM) (r d : Nat) :
    (vm.write_single_reg r d).printer = vm.printer := rfl

theorem write_single_reg_output (vm : VM) (r d : Nat) :
    (vm.write_single_reg r d).output = vm.output := rfl

theorem write_double_reg_printer (vm : VM) (r d : Nat) :
    (vm.write_double_reg r d).printer = vm.printer := by
  unfold VM.write_double_reg; split_ifs <;> rfl

theorem write_double_reg_output (vm : VM) (r d : Nat) :
    (vm.write_double_reg r d).output = vm.output := by
  unfold VM.write_double_reg; split_ifs <;> rfl

theorem write_reg_printer (vm : VM) (r d : Nat) :
    (vm.write_reg r d).printer = vm.printer := by
  unfold VM.write_reg
  split_ifs <;> simp [write_double_reg_printer, write_single_reg_printer]

theorem write_reg_output (vm : VM) (r d : Nat) :
    (vm.write_reg r d).output = vm.output := by
  unfold VM.write_reg
  split_ifs <;> simp [write_double_reg_output, write_single_reg_output]

theorem write_mem_printer (vm : VM) (a w d : Nat) :
    (vm.write_mem a w d).printer = vm.printer := by
  unfold VM.write_mem; split_ifs <;> rfl

theorem write_mem_output (vm : VM) (a w d : Nat) :
    (vm.write_mem a w d).output = vm.output := by
  unfold VM.write_mem; split_ifs <;> rfl

theorem push_u16_printer (vm : VM) (d : Nat) :
    (vm.push_u16 d).printer = vm.printer := by
  unfold VM.push_u16 VM.write_mem_u16; exact write_mem_printer _ _ _ _

theorem push_u16_output (vm : VM) (d : Nat) :
    (vm.push_u16 d).output = vm.output := by
  unfold VM.push_u16 VM.write_mem_u16; exact write_mem_output _ _ _ _

theorem push_u8_printer (vm : VM) (d : Nat) :
    (vm.push_u8 d).printer = vm.printer := by
  unfold VM.push_u8 VM.write_mem_u8; exact write_mem_printer _ _ _ _

theorem push_u8_output (vm : VM) (d : Nat) :
    (vm.push_u8 d).output = vm.output := by
  unfold VM.push_u8 VM.write_mem_u8; exact write_mem_output _ _ _ _

theorem fetch_byte_printer (vm : VM) : vm.fetch_byte.2.printer = vm.printer := rfl

theorem fetch_byte_output (vm : VM) : vm.fetch_byte.2.output = vm.output := rfl

theorem fetch_u16_printer (vm : VM) : vm.fetch_u16.2.printer = vm.printer := rfl

theorem fetch_u16_output (vm : VM) : vm.fetch_u16.2.output = vm.output := rfl

/-- Every instruction effect (`exec_opcode`, `some` case) leaves `printer` and
`output` untouched: only the printer check appends to `printer`, and only the
HALT path of `run` appends to `output`. -/
theorem exec_opcode_printer_output (vm : VM) (op : OpCode) (w : VM)
    (h : vm.exec_opcode op = some w) :
    w.printer = vm.printer ∧ w.output = vm.output := by
  cases op <;> simp only [VM.exec_opcode, Option.some.injEq] at h <;>
    first
    | exact Option.noConfusion h
    | (subst h
       simp [VM.inst_loadi, VM.inst_loada, VM.inst_loadr, VM.inst_stra, VM.inst_strr,
         VM.inst_xfer, VM.inst_addi, VM.inst_adda, VM.inst_addr,
         VM.inst_ori, VM.inst_ora, VM.inst_orr, VM.inst_andi, VM.inst_anda, VM.inst_andr,
         VM.inst_xori, VM.inst_xora, VM.inst_xorr, VM.inst_rotr, VM.inst_rotl,
         VM.inst_jmp, VM.inst_jmpa, VM.inst_ldspi, VM.inst_ldspa, VM.inst_ldspr,
         VM.inst_push, VM.inst_pop, VM.inst_calla, VM.inst_callr, VM.inst_rtn,
         VM.pop_u16, VM.pop_u8,
         write_reg_printer, write_reg_output, write_mem_printer, write_mem_output,
         write_double_reg_printer, write_double_reg_output,
         write_single_reg_printer, write_single_reg_output,
         push_u16_printer, push_u16_output, push_u8_printer, push_u8_output,
         fetch_byte_printer, fetch_byte_output, fetch_u16_printer, fetch_u16_output] <;>
       (try split) <;>
       simp only [write_double_reg_printer, write_double_reg_output,
         write_single_reg_printer, write_single_reg_output,
         push_u16_printer, push_u16_output, push_u8_printer, push_u8_output,
         write_reg_printer, write_reg_output, write_mem_printer, write_mem_output,
         fetch_byte_printer, fetch_byte_output, fetch_u16_printer, fetch_u16_output,
         and_self])

theorem drain_printer_mem (vm : VM) :
    vm.drain_printer.memory PRINTER_ADDR = 0 := by
  unfold VM.drain_printer
  split
  · simp [updf_same]
  · omega

theorem drain_printer_printer (vm : VM) :
    ∃ t, vm.drain_printer.printer = vm.printer ++ t := by
  unfold VM.drain_printer
  split
  · exact ⟨_, rfl⟩
  · exact ⟨[], by simp⟩

theorem drain_printer_output (vm : VM) :
    vm.drain_printer.output = vm.output := by
  unfold VM.drain_printer; split <;> rfl

/-- Inversion for a continuing step: the successor state is the printer check
applied to an instruction effect. -/
theorem step_next_inv (vm vm' : VM) (h : vm.step = .next vm') :
    ∃ w, vm.fetch_byte.2.exec_opcode (OpCode.fromByte vm.fetch_byte.1) = some w ∧
      vm' = w.drain_printer := by
  unfold VM.step at h
  split at h
  · cases h
  · split at h
    next w hw => exact ⟨w, hw, by cases h; rfl⟩
    next => cases h

theorem step_halted_inv (vm v : VM) (h : vm.step = .halted v) :
    v = vm.fetch_byte.2 := by
  unfold VM.step at h
  split at h
  · cases h; rfl
  · split at h <;> cases h

theorem step_fault_inv (vm v : VM) (m : String) (h : vm.step = .fault v m) :
    v = vm.fetch_byte.2 := by
  unfold VM.step at h
  split at h
  · cases h
  · split at h
    · cases h
    · cases h; rfl

theorem step_next_printer_cleared (vm vm' : VM) (h : vm.step = .next vm') :
    vm'.memory PRINTER_ADDR = 0 ∧ ∃ t, vm'.printer = vm.printer ++ t := by
  obtain ⟨w, hw, rfl⟩ := step_next_inv vm vm' h
  refine ⟨drain_printer_mem w, ?_⟩
  obtain ⟨t, ht⟩ := drain_printer_printer w
  refine ⟨t, ?_⟩
  rw [ht, (exec_opcode_printer_output _ _ _ hw).1, fetch_byte_printer]

theorem step_next_output (vm vm' : VM) (h : vm.step = .next vm') :
    vm'.output = vm.output := by
  obtain ⟨w, hw, rfl⟩ := step_next_inv vm vm' h
  rw [drain_printer_output, (exec_opcode_printer_output _ _ _ hw).2, fetch_byte_output]

/-- A faulting run returns with the `output` accumulator exactly as it was:
the fault `return` never reaches the `output += printer` flush. -/
theorem runFuel_fault_output (n : Nat) :
    ∀ vm vm' msg, VM.runFuel n vm = .fault vm' msg → vm'.output = vm.output := by
  induction n with
  | zero => intro vm vm' msg h; cases h
  | succ n ih =>
    intro vm vm' msg h
    unfold VM.runFuel at h
    split at h
    · next v hv => rw [ih _ _ _ h, step_next_output vm v hv]
    · cases h
    · next v m hv =>
      have hv2 := step_fault_inv vm v m hv
      cases h
      rw [hv2, fetch_byte_output]

/-- A run that reaches HALT returns with `output` equal to the initial
`output` extended by the final printer buffer (the `output += printer`
flush). -/
theorem runFuel_ok_output (n : Nat) :
    ∀ vm vm', VM.runFuel n vm = .ok vm' →
      vm'.output = vm.output ++ vm'.printer := by
  induction n with
  | zero => intro vm vm' h; cases h
  | succ n ih =>
    intro vm vm' h
    unfold VM.runFuel at h
    split at h
    · next v hv => rw [ih _ _ h, step_next_output vm v hv]
    · next v hv =>
      have hv2 := step_halted_inv vm v hv
      cases h
      simp only [hv2, fetch_byte_output]
    · cases h

/-! ## Concrete programs for the printer-port and fault claims -/

/-- `LOADI %1 #0x41; STRA %1 0xFFFD; HALT` (opcodes 25, 27, 18): store byte
0x41 to the printer port, then halt.  The bytes at 0xFFFE/0xFFFF are zero, so
the reset vector starts execution at 0. -/
def c1_code : List CodeSection := [⟨0, [25, 1, 0, 0x41, 27, 1, 0xFF, 0xFD, 18]⟩]

def c1_vm : VM := VM.new.install_code c1_code

/-- Same two instructions, but followed by opcode byte 0 (`NOOP`, no dispatch
arm) instead of HALT. -/
def c2_code : List CodeSection := [⟨0, [25, 1, 0, 0x41, 27, 1, 0xFF, 0xFD, 0]⟩]

def c2_vm : VM := VM.new.install_code c2_code

def run_fault_info : RunResult → Option (List Char × List Char × String)
  | .fault v m => some (v.output, v.printer, m)
  | _ => none

def faultMsg : StepResult → Option String
  | .fault _ m => some m
  | _ => none

/-- C1: after every executed instruction (every continuing step of the run
loop) the printer cell 0xFFFD has been drained back to zero and the printer
buffer only ever grows by what was drained; consequently the concrete program
that stores 0x41 to 0xFFFD and halts runs to a successful stop with output
exactly "A". -/
theorem c1_printer_port :
    (∀ vm vm' : VM, vm.step = .next vm' →
        vm'.memory PRINTER_ADDR = 0 ∧ ∃ t, vm'.printer = vm.printer ++ t)
    ∧ run_output (VM.runFuel 3 c1_vm) = some ['A'] :=
  ⟨step_next_printer_cleared, by decide⟩

def c1_wvm : VM := { VM.new with memory := updf (fun _ => 0) 0 17 }

def c1_wvm1 : VM := match c1_wvm.step with | .next v => v | _ => VM.new

/-- Witness for C1 at a concrete continuing step (an `RTN` instruction at
address 0). -/
theorem c1_printer_port_witness :
    c1_wvm1.memory PRINTER_ADDR = 0 ∧ ∃ t, c1_wvm1.printer = c1_wvm.printer ++ t :=
  c1_printer_port.1 c1_wvm c1_wvm1 rfl

/-- C2: a faulting run returns its error with the `output` accumulator exactly
as it started (partial printer output is withheld); only a HALT exit flushes
the printer buffer into `output`; and the concrete program that prints then
hits the unmapped opcode byte 0 faults with empty output while the printer
buffer holds "A". -/
theorem c2_fault_withholds_output :
    (∀ (n : Nat) (vm vm' : VM) (msg : String),
        VM.runFuel n vm = .fault vm' msg → vm'.output = vm.output)
    ∧ (∀ (n : Nat) (vm vm' : VM),
        VM.runFuel n vm = .ok vm' → vm'.output = vm.output ++ vm'.printer)
    ∧ run_fault_info (VM.runFuel 4 c2_vm) =
        some ([], ['A'], "Unknown opcode encountered") :=
  ⟨fun n => runFuel_fault_output n, fun n => runFuel_ok_output n, by decide⟩

def c2_wv : VM := match VM.runFuel 4 c2_vm with | .fault v _ => v | _ => VM.new

/-- Witness for C2 at the concrete faulting run. -/
theorem c2_fault_withholds_output_witness : c2_wv.output = c2_vm.output :=
  c2_fault_withholds_output.1 4 c2_vm c2_wv "Unknown opcode encountered" rfl

theorem getD_set_self (l : List CodePart) (i : Nat) (c d : CodePart)
    (h : i < l.length) : (l.set i c).getD i d = c := by
  induction l generalizing i with
  | nil => simp at h
  | cons a t ih =>
    cases i with
    | zero => rfl
    | succ j =>
      simp only [List.set, List.getD, List.getElem?_cons_succ]
      have := ih j (by simpa using h)
      simpa [List.getD] using this

theorem activePart_setActivePart (p : Program) (c : CodePart)
    (h : p.part_i < p.parts.length) : (p.setActivePart c).activePart = c := by
  unfold Program.setActivePart Program.activePart
  exact getD_set_self _ _ _ _ h

/-- C10: opcode byte 0 is `NOOP`; the parser emits exactly that byte for the
`NOOP` mnemonic; executing it faults with the unknown-opcode error (there is
no dispatch arm for `NOOP`); and every byte above `OpCode::End as u8 = 33`
converts to `NOOP` and therefore faults as well. -/
theorem c10_noop_faults :
    OpCode.fromByte 0 = OpCode.NOOP
    ∧ (∀ p : Program, p.part_i < p.parts.length →
        (parse_no_args_emit p OpCode.NOOP).activePart.bytes = p.activePart.bytes ++ [0])
    ∧ (∀ vm : VM, vm.memory vm.pc = 0 →
        faultMsg vm.step = some "Unknown opcode encountered")
    ∧ (∀ b : Nat, 33 < b → OpCode.fromByte b = OpCode.NOOP)
    ∧ (∀ vm : VM, 33 < vm.memory vm.pc →
        faultMsg vm.step = some "Unknown opcode encountered") := by
  have hnoop : ∀ vm : VM, OpCode.fromByte vm.fetch_byte.1 = OpCode.NOOP →
      faultMsg vm.step = some "Unknown opcode encountered" := by
    intro vm hop
    unfold VM.step
    rw [hop]
    simp [VM.exec_opcode, faultMsg]
  have hbig : ∀ b : Nat, 33 < b → OpCode.fromByte b = OpCode.NOOP := by
    intro b hb
    unfold OpCode.fromByte
    rw [if_pos]
    show 33 < b
    exact hb
  refine ⟨by decide, ?_, ?_, hbig, ?_⟩
  · intro p hp
    unfold parse_no_args_emit Program.append_code
    rw [activePart_setActivePart _ _ hp]
    rfl
  · intro vm h0
    exact hnoop vm (by show OpCode.fromByte (vm.memory vm.pc) = _; rw [h0]; decide)
  · intro vm hb
    exact hnoop vm (by show OpCode.fromByte (vm.memory vm.pc) = _
                       exact hbig _ hb)

/-- Witness for C10: the NOOP emission on a fresh program, the fault on a
fresh VM (opcode byte 0 at address 0), and byte 255. -/
theorem c10_noop_faults_witness :
    (parse_no_args_emit Program.new OpCode.NOOP).activePart.bytes
        = Program.new.activePart.bytes ++ [0]
    ∧ faultMsg VM.new.step = some "Unknown opcode encountered"
    ∧ OpCode.fromByte 255 = OpCode.NOOP :=
  ⟨c10_noop_faults.2.1 Program.new (by decide),
   c10_noop_faults.2.2.1 VM.new rfl,
   c10_noop_faults.2.2.2.1 255 (by decide)⟩

/-! ## C5: wrapping arithmetic -/

/-- The `Vec<u8>` register file type invariant. -/
def VM.WfRegs (vm : VM) : Prop := ∀ i, vm.registers i < 256

/-- The `Vec<u8>` memory type invariant. -/
def VM.WfMem (vm : VM) : Prop := ∀ a, vm.memory a < 256

theorem read_double_reg_lt (vm : VM) (r : Nat) (h : vm.WfRegs) :
    vm.read_double_reg r < 65536 := by
  unfold VM.read_double_reg
  split_ifs <;>
    first
    | omega
    | (rw [lor_byte_eq _ _ (h _)]
       have := h 2; have := h 3; have := h 4; have := h 5
       have := h 6; have := h 7; have := h 8; have := h 9
       omega)

theorem read_reg_lt (vm : VM) (r : Nat) (h : vm.WfRegs) :
    vm.read_reg r < 65536 := by
  unfold VM.read_reg
  split
  · exact read_double_reg_lt vm r h
  · exact lt_trans (h r) (by omega)

theorem read_reg_single (vm : VM) (r : Nat) (hr : is_double_reg r = false) :
    vm.read_reg r = vm.registers r := by
  unfold VM.read_reg
  rw [hr]
  rfl

theorem read_mem_lt (vm : VM) (addr w : Nat) (h : vm.WfMem) :
    vm.read_mem addr w < 65536 := by
  unfold VM.read_mem
  split_ifs
  · exact lt_trans (h addr) (by omega)
  · rw [lor_byte_eq _ _ (h _)]
    have := h addr; have := h ((addr + 1) % 65536)
    omega
  · omega

/-- Reading back a register just written: paired registers round-trip the full
16-bit value, single registers the low byte. -/
theorem read_write_reg_self (vm : VM) (r d : Nat) (hd : d < 65536) :
    (vm.write_reg r d).read_reg r = if is_double_reg r then d else d % 256 := by
  by_cases hdr : is_double_reg r
  · rw [if_pos hdr]
    have hr : 10 ≤ r ∧ r ≤ 13 := by simpa [is_double_reg, REG_A, REG_D] using hdr
    unfold VM.write_reg VM.read_reg
    rw [hdr]
    simp only [if_pos]
    have hsplit : (d >>> 8) % 256 * 256 + d % 256 = d := by
      rw [Nat.shiftRight_eq_div_pow]
      omega
    obtain h10 | h11 | h12 | h13 : r = 10 ∨ r = 11 ∨ r = 12 ∨ r = 13 := by omega
    all_goals subst r
    all_goals unfold VM.write_double_reg VM.read_double_reg
    all_goals simp only [REG_A, REG_B, REG_C, REG_D]
    all_goals norm_num
    all_goals rw [updf_same, updf_other _ _ _ _ (by omega), updf_same,
      lor_byte_eq _ _ (by omega)]
    all_goals exact hsplit
  · rw [if_neg hdr]
    unfold VM.write_reg VM.read_reg
    rw [eq_false_of_ne_true hdr]
    simp only [Bool.false_eq_true, if_false]
    unfold VM.write_single_reg VM.read_single_reg
    exact updf_same _ _ _

/-- Core of the three ADD conjuncts of C5: writing a 16-bit value to a register and
reading it back is the identity whenever the value also fits the width of
the register. -/
theorem write_read_mod (vm : VM) (r S : Nat) (hS : S < 65536)
    (hsmall : is_double_reg r = false → S < 256) :
    (vm.write_reg r S).read_reg r = S := by
  rw [read_write_reg_self vm r S hS]
  by_cases hdr : is_double_reg r
  · rw [if_pos hdr]
  · rw [if_neg hdr]
    have := hsmall (eq_false_of_ne_true hdr)
    omega

/-- C5: u16 arithmetic wraps modulo 65536.  All three ADD forms store the sum
mod 2^16 when it exceeds 0xFFFF (silently — there is no error path); a fetch
past 0xFFFF wraps the program counter to 0; a push below 0 wraps the stack
pointer to 0xFFFE. -/
theorem c5_wrap_mod_65536 :
    (∀ (vm : VM) (r data : Nat), r ≤ 13 → vm.WfRegs → data < 65536 →
        65536 ≤ vm.read_reg r + data →
        (vm.inst_addi r data).read_reg r = (vm.read_reg r + data) % 65536)
    ∧ (∀ (vm : VM) (r addr : Nat), r ≤ 13 → vm.WfRegs → vm.WfMem →
        65536 ≤ vm.read_reg r + vm.read_mem addr (reg_width r) →
        (vm.inst_adda r addr).read_reg r
          = (vm.read_reg r + vm.read_mem addr (reg_width r)) % 65536)
    ∧ (∀ (vm : VM) (dest src : Nat), dest ≤ 13 → src ≤ 13 → vm.WfRegs →
        65536 ≤ vm.read_reg src + vm.read_reg dest →
        (vm.inst_addr dest src).read_reg dest
          = (vm.read_reg src + vm.read_reg dest) % 65536)
    ∧ (∀ vm : VM, vm.fetch_byte.2.pc = (vm.pc + 1) % 65536)
    ∧ (∀ vm : VM, vm.pc = 0xFFFF → vm.fetch_byte.2.pc = 0)
    ∧ (∀ (vm : VM) (d : Nat), (vm.push_u16 d).sp = (vm.sp + 65534) % 65536)
    ∧ (∀ (vm : VM) (d : Nat), vm.sp = 0 → (vm.push_u16 d).sp = 0xFFFE) := by
  refine ⟨?_, ?_, ?_, fun vm => rfl, ?_, ?_, ?_⟩
  · intro vm r data _ hwf hdata hov
    unfold VM.inst_addi
    apply write_read_mod _ _ _ (Nat.mod_lt _ (by omega))
    intro hsingle
    have h1 : vm.read_reg r < 256 := by
      rw [read_reg_single vm r hsingle]; exact hwf r
    omega
  · intro vm r addr _ hwf hwfm hov
    unfold VM.inst_adda
    apply write_read_mod _ _ _ (Nat.mod_lt _ (by omega))
    intro hsingle
    have h1 : vm.read_reg r < 256 := by
      rw [read_reg_single vm r hsingle]; exact hwf r
    have h2 : vm.read_mem addr (reg_width r) < 65536 := read_mem_lt vm _ _ hwfm
    omega
  · intro vm dest src _ _ hwf hov
    unfold VM.inst_addr
    apply write_read_mod _ _ _ (Nat.mod_lt _ (by omega))
    intro hsingle
    have h1 : vm.read_reg dest < 256 := by
      rw [read_reg_single vm dest hsingle]; exact hwf dest
    have h2 : vm.read_reg src < 65536 := read_reg_lt vm src hwf
    omega
  · intro vm h
    show (vm.pc + 1) % 65536 = 0
    rw [h]
  · intro vm d
    rfl
  · intro vm d h
    show (vm.sp + 65534) % 65536 = 0xFFFE
    rw [h]

def c5_wvm : VM := { VM.new with registers := fun _ => 255 }

/-- Witness for C5: `ADDI` on paired register A holding 0xFFFF plus 1 wraps to
0; a fetch at pc = 0xFFFF wraps to 0; a push at sp = 0 wraps to 0xFFFE. -/
theorem c5_wrap_mod_65536_witness :
    (c5_wvm.inst_addi 10 1).read_reg 10 = (c5_wvm.read_reg 10 + 1) % 65536
    ∧ ({ VM.new with pc := 0xFFFF } : VM).fetch_byte.2.pc = 0
    ∧ (VM.new.push_u16 7).sp = 0xFFFE :=
  ⟨c5_wrap_mod_65536.1 c5_wvm 10 1 (by decide) (by intro i; simp [c5_wvm]) (by decide)
      (by decide),
   c5_wrap_mod_65536.2.2.2.2.1 { VM.new with pc := 0xFFFF } rfl,
   c5_wrap_mod_65536.2.2.2.2.2.2 VM.new 7 rfl⟩


/-! ## C7: PUSH/POP and CALL/RTN round-trips -/

theorem drain_printer_registers (vm : VM) :
    vm.drain_printer.registers = vm.registers := by
  unfold VM.drain_printer; split <;> rfl

theorem drain_printer_sp (vm : VM) : vm.drain_printer.sp = vm.sp := by
  unfold VM.drain_printer; split <;> rfl

theorem drain_printer_pc (vm : VM) : vm.drain_printer.pc = vm.pc := by
  unfold VM.drain_printer; split <;> rfl

theorem drain_printer_mem_ne (vm : VM) (a : Nat) (h : a ≠ PRINTER_ADDR) :
    vm.drain_printer.memory a = vm.memory a := by
  unfold VM.drain_printer
  split
  · exact updf_other _ _ _ _ h
  · rfl

theorem drain_printer_memory_eq (u w : VM) (hm : u.memory = w.memory) :
    u.drain_printer.memory = w.drain_printer.memory := by
  unfold VM.drain_printer
  rw [hm]
  split <;> simp [hm]

theorem write_double_reg_sp (vm : VM) (r d : Nat) :
    (vm.write_double_reg r d).sp = vm.sp := by
  unfold VM.write_double_reg; split_ifs <;> rfl

theorem read_reg_eq_of_registers (v w : VM) (r : Nat)
    (h : v.registers = w.registers) : v.read_reg r = w.read_reg r := by
  unfold VM.read_reg VM.read_double_reg VM.read_single_reg
  rw [h]

theorem read_reg_double (vm : VM) (r : Nat) (h : is_double_reg r = true) :
    vm.read_reg r = vm.read_double_reg r := by
  simp [VM.read_reg, h]

theorem inst_push_double (vm : VM) (r : Nat) (h : is_double_reg r = true) :
    vm.inst_push r = vm.push_u16 (vm.read_double_reg r) := by
  simp [VM.inst_push, h]

theorem inst_pop_double (vm : VM) (r : Nat) (h : is_double_reg r = true) :
    vm.inst_pop r = vm.pop_u16.2.write_double_reg r vm.pop_u16.1 := by
  simp [VM.inst_pop, h]

theorem pop_u16_fst_eq (u w : VM) (hm : u.memory = w.memory) (hs : u.sp = w.sp) :
    u.pop_u16.1 = w.pop_u16.1 := by
  unfold VM.pop_u16 VM.read_mem_u16 VM.read_mem
  rw [hm, hs]

/-- State of a 16-bit push with the stack in range: `sp` drops by 2, the two
bytes land big-endian at the new `sp`, and nothing else changes. -/
theorem push_u16_state (vm : VM) (d : Nat) (h2 : 2 ≤ vm.sp) (hsp : vm.sp < 65536) :
    (vm.push_u16 d).sp = vm.sp - 2
    ∧ (vm.push_u16 d).memory (vm.sp - 2) = (d >>> 8) % 256
    ∧ (vm.push_u16 d).memory (vm.sp - 1) = d % 256
    ∧ (vm.push_u16 d).registers = vm.registers
    ∧ (vm.push_u16 d).pc = vm.pc := by
  have e1 : (vm.sp + 65534) % 65536 = vm.sp - 2 := by omega
  unfold VM.push_u16 VM.write_mem_u16 VM.write_mem
  rw [if_neg (by decide : ¬((2 : Nat) = 1)), if_pos (rfl : (2 : Nat) = 2)]
  simp only [e1]
  have e2 : (vm.sp - 2 + 1) % 65536 = vm.sp - 1 := by omega
  simp only [e2]
  refine ⟨by simp, ?_, ?_, by simp, by simp⟩
  · rw [updf_other _ _ _ _ (show vm.sp - 2 ≠ vm.sp - 1 by omega), updf_same]
  · exact updf_same _ _ _

/-- Reading back a 16-bit value stored big-endian. -/
theorem read_mem_u16_reconstruct (w : VM) (t d : Nat) (ht : t + 1 < 65536)
    (hd : d < 65536)
    (hmem1 : w.memory t = (d >>> 8) % 256) (hmem2 : w.memory (t + 1) = d % 256) :
    w.read_mem_u16 t = d := by
  unfold VM.read_mem_u16 VM.read_mem
  rw [if_neg (by decide : ¬((2 : Nat) = 1)), if_pos (rfl : (2 : Nat) = 2)]
  rw [Nat.mod_eq_of_lt ht, hmem1, hmem2]
  rw [lor_byte_eq _ _ (by omega)]
  rw [Nat.shiftRight_eq_div_pow]
  norm_num
  omega

theorem read_write_double_self (vm : VM) (r d : Nat)
    (hdr : is_double_reg r = true) (hd : d < 65536) :
    (vm.write_double_reg r d).read_reg r = d := by
  have h := read_write_reg_self vm r d hd
  rw [if_pos hdr] at h
  unfold VM.write_reg at h
  rw [hdr] at h
  simpa using h

theorem pop_u16_fst (u : VM) : u.pop_u16.1 = u.read_mem_u16 u.sp := rfl

theorem pop_u16_snd_sp (u : VM) : u.pop_u16.2.sp = (u.sp + 2) % 65536 := rfl

theorem pop_u16_snd_registers (u : VM) : u.pop_u16.2.registers = u.registers := rfl

/-- Push then (after the printer check) pop: the popped value is the pushed
one, the stack pointer is restored, and registers and pc are untouched. -/
theorem push_drain_pop_core (vm : VM) (d : Nat) (hdlt : d < 65536)
    (hsp : vm.sp < 65536) (h2 : 2 ≤ vm.sp)
    (hne2 : vm.sp - 2 ≠ PRINTER_ADDR) (hne1 : vm.sp - 1 ≠ PRINTER_ADDR) :
    (vm.push_u16 d).drain_printer.pop_u16.1 = d
    ∧ (vm.push_u16 d).drain_printer.pop_u16.2.sp = vm.sp
    ∧ (vm.push_u16 d).drain_printer.pop_u16.2.registers = vm.registers := by
  obtain ⟨hA_sp, hA_m2, hA_m1, hA_regs, _⟩ := push_u16_state vm d h2 hsp
  have hB_sp : (vm.push_u16 d).drain_printer.sp = vm.sp - 2 := by
    rw [drain_printer_sp, hA_sp]
  have hB_m2 : (vm.push_u16 d).drain_printer.memory (vm.sp - 2)
      = (d >>> 8) % 256 := by
    rw [drain_printer_mem_ne _ _ hne2, hA_m2]
  have hB_m1 : (vm.push_u16 d).drain_printer.memory (vm.sp - 2 + 1)
      = d % 256 := by
    rw [show vm.sp - 2 + 1 = vm.sp - 1 by omega, drain_printer_mem_ne _ _ hne1,
      hA_m1]
  have hval : (vm.push_u16 d).drain_printer.read_mem_u16 (vm.sp - 2) = d :=
    read_mem_u16_reconstruct _ _ _ (by omega) hdlt hB_m2 hB_m1
  refine ⟨?_, ?_, ?_⟩
  · rw [pop_u16_fst, hB_sp]
    exact hval
  · rw [pop_u16_snd_sp, hB_sp]
    omega
  · rw [pop_u16_snd_registers, drain_printer_registers, hA_regs]

/-- C7: with the stack in range and the pushed slots distinct from the printer
cell 0xFFFD, the PUSH effect on a paired register followed (after the printer
check the run loop performs between instructions) by the POP effect into
another paired register leaves the destination holding the original 16-bit
value of the source with the stack pointer restored; the push decrements SP by 2
before writing.  Likewise the CALL effect followed immediately by the RTN
effect restores PC to the value the CALL pushed — which, at effect time, is
the address of the instruction after the CALL, the operand bytes having been
fetched — with the CALL having jumped to its operand address in between. -/
theorem c7_stack_round_trip (vm : VM) (r1 r2 a : Nat)
    (hr1 : is_double_reg r1 = true) (hr2 : is_double_reg r2 = true)
    (hwf : vm.WfRegs) (hsp : vm.sp < 65536) (h2 : 2 ≤ vm.sp)
    (hne2 : vm.sp - 2 ≠ PRINTER_ADDR) (hne1 : vm.sp - 1 ≠ PRINTER_ADDR)
    (hpc : vm.pc < 65536) :
    (((vm.inst_push r1).drain_printer.inst_pop r2).drain_printer.read_reg r2
        = vm.read_reg r1
      ∧ ((vm.inst_push r1).drain_printer.inst_pop r2).drain_printer.sp = vm.sp
      ∧ (vm.inst_push r1).sp = vm.sp - 2)
    ∧ ((vm.inst_calla a).drain_printer.inst_rtn.drain_printer.pc = vm.pc
      ∧ (vm.inst_calla a).pc = a) := by
  have hd : vm.read_double_reg r1 < 65536 := read_double_reg_lt vm r1 hwf
  constructor
  · obtain ⟨hv, hs, _⟩ :=
      push_drain_pop_core vm (vm.read_double_reg r1) hd hsp h2 hne2 hne1
    rw [inst_push_double vm r1 hr1]
    rw [inst_pop_double _ r2 hr2]
    refine ⟨?_, ?_, ?_⟩
    · rw [read_reg_eq_of_registers _ _ r2 (drain_printer_registers _)]
      rw [hv]
      rw [read_write_double_self _ _ _ hr2 hd]
      rw [read_reg_double vm r1 hr1]
    · rw [drain_printer_sp, write_double_reg_sp]
      exact hs
    · exact (push_u16_state vm _ h2 hsp).1
  · obtain ⟨hv, _, _⟩ := push_drain_pop_core vm vm.pc hpc hsp h2 hne2 hne1
    constructor
    · rw [drain_printer_pc]
      show (vm.inst_calla a).drain_printer.pop_u16.1 = vm.pc
      rw [pop_u16_fst_eq (vm.inst_calla a).drain_printer
            (vm.push_u16 vm.pc).drain_printer
            (drain_printer_memory_eq _ _ rfl)
            (by rw [drain_printer_sp, drain_printer_sp]; rfl)]
      exact hv
    · rfl

def c7_wvm : VM :=
  { VM.new with
      registers := updf (updf (fun _ => 0) 2 0x12) 3 0x34
      sp := 0x1000
      pc := 5 }

/-- Witness for C7: push paired register A (holding 0x1234) and pop into
paired register B at sp = 0x1000; the CALL/RTN pair at pc = 5. -/
theorem c7_stack_round_trip_witness :
    (((c7_wvm.inst_push 10).drain_printer.inst_pop 11).drain_printer.read_reg 11
        = c7_wvm.read_reg 10
      ∧ ((c7_wvm.inst_push 10).drain_printer.inst_pop 11).drain_printer.sp
        = c7_wvm.sp
      ∧ (c7_wvm.inst_push 10).sp = c7_wvm.sp - 2)
    ∧ ((c7_wvm.inst_calla 0x40).drain_printer.inst_rtn.drain_printer.pc
        = c7_wvm.pc
      ∧ (c7_wvm.inst_calla 0x40).pc = 0x40) :=
  c7_stack_round_trip c7_wvm 10 11 0x40 (by decide) (by decide)
    (by intro i; simp only [c7_wvm, updf]; split_ifs <;> decide)
    (by decide) (by decide) (by decide) (by decide) (by decide)

/-! ## C3: pending links and their resolution -/

theorem lookup_insertLink (k : Nat) (v : LabelReplace)
    (m : List (Nat × LabelReplace)) :
    lookupLink (insertLink k v m) k = some v := by
  induction m with
  | nil => simp [insertLink, lookupLink]
  | cons a rest ih =>
    obtain ⟨k2, v2⟩ := a
    unfold insertLink
    by_cases h : k2 = k
    · rw [if_pos h]
      simp [lookupLink]
    · rw [if_neg h]
      unfold lookupLink
      rw [if_neg h]
      exact ih

def c3_tok : Token := ⟨.IDENT, "foo+2", 1, 1⟩

def c3_step : Except ParserError (Nat × Program) :=
  parse_address c3_tok 1 Program.new

def exceptOk : Except ParserError (Nat × Program) → Option (Nat × Program)
  | .ok x => some x
  | .error _ => none

def c3_p1 : Program :=
  match c3_step with
  | .ok (_, p) => p
  | .error _ => Program.new

/-- `JMPA foo+2` byte emission (`parse_num` appends opcode 20 and the two
placeholder bytes of the zero value `parse_address` returned), then 13 filler
bytes, then `:foo`, binding label `foo` to address 0x0010. -/
def c3_p3 : Program :=
  ((c3_p1.append_code [20, 0, 0]).append_code (List.replicate 13 0)).add_label "foo"

/-- C3: parsing operand `foo+2` (label undefined at parse time) yields the
zero placeholder and records, in the pending-link table of the active region
at the region-relative offset of the placeholder, the entry with label "foo" and signed
offset 2; linking the concrete program with `foo` at 0x0010 overwrites the two
placeholder bytes with 0x00 then 0x12. -/
theorem c3_pending_link :
    (∀ (prog : Program) (pcoffset line col : Nat),
        prog.part_i < prog.parts.length →
        lookupLabel prog.labels "foo" = none →
        parse_address ⟨.IDENT, "foo+2", line, col⟩ pcoffset prog
            = .ok (0, prog.add_link pcoffset "foo" 2)
        ∧ lookupLink (prog.add_link pcoffset "foo" 2).activePart.link_map
            (((prog.pc + 65536 - prog.activePart.start_pc) % 65536 + pcoffset) % 65536)
            = some ⟨"foo", 2⟩)
    ∧ exceptOk c3_step = some (0, c3_p1)
    ∧ lookupLink c3_p1.activePart.link_map 1 = some ⟨"foo", 2⟩
    ∧ c3_p1.activePart.bytes = []
    ∧ lookupLabel c3_p3.labels "foo" = some 0x10
    ∧ c3_p3.activePart.bytes.take 3 = [20, 0, 0]
    ∧ (link c3_p3).1 = none
    ∧ (link c3_p3).2.activePart.bytes.take 3 = [20, 0x00, 0x12] := by
  refine ⟨?_, by decide, by decide, by decide, by decide, by decide, by decide,
    by decide⟩
  intro prog pcoffset line col hp _
  constructor
  · rfl
  · unfold Program.add_link
    rw [activePart_setActivePart _ _ hp]
    exact lookup_insertLink _ _ _

/-- Witness for the generic conjunct of C3 at the fresh program. -/
theorem c3_pending_link_witness :
    parse_address ⟨.IDENT, "foo+2", 2, 3⟩ 1 Program.new
        = .ok (0, Program.new.add_link 1 "foo" 2)
    ∧ lookupLink (Program.new.add_link 1 "foo" 2).activePart.link_map
        (((Program.new.pc + 65536 - Program.new.activePart.start_pc) % 65536 + 1)
          % 65536)
        = some ⟨"foo", 2⟩ :=
  c3_pending_link.1 Program.new 1 2 3 (by decide) (by decide)

/-! ## C4: the linker on missing labels -/

theorem linkPart_none_iff (labels : List (String × Nat))
    (links : List (Nat × LabelReplace)) :
    ∀ bytes, (linkPart labels links bytes).1 = none ↔
      ∀ pl ∈ links, (lookupLabel labels pl.2.label).isSome = true := by
  induction links with
  | nil => intro bytes; simp [linkPart]
  | cons a rest ih =>
    intro bytes
    obtain ⟨loc, lr⟩ := a
    unfold linkPart
    cases hl : lookupLabel labels lr.label with
    | some memloc =>
      simp only [List.mem_cons, forall_eq_or_imp]
      rw [ih]
      simp [hl]
    | none =>
      simp [hl]

theorem linkPart_some (labels : List (String × Nat))
    (links : List (Nat × LabelReplace)) :
    ∀ bytes msg, (linkPart labels links bytes).1 = some msg →
      ∃ name, msg = "label " ++ name ++ " is not defined"
        ∧ lookupLabel labels name = none := by
  induction links with
  | nil => intro bytes msg h; simp [linkPart] at h
  | cons a rest ih =>
    intro bytes msg h
    obtain ⟨loc, lr⟩ := a
    unfold linkPart at h
    cases hl : lookupLabel labels lr.label with
    | some memloc =>
      rw [hl] at h
      exact ih _ _ h
    | none =>
      rw [hl] at h
      simp only [Option.some.injEq] at h
      exact ⟨lr.label, h.symm, hl⟩

theorem linkParts_none_iff (labels : List (String × Nat))
    (parts : List CodePart) :
    (linkParts labels parts).1 = none ↔
      ∀ part ∈ parts, ∀ pl ∈ part.link_map,
        (lookupLabel labels pl.2.label).isSome = true := by
  induction parts with
  | nil => simp [linkParts]
  | cons part rest ih =>
    unfold linkParts
    simp only [List.mem_cons, forall_eq_or_imp]
    cases he : (linkPart labels part.link_map part.bytes).1 with
    | some msg =>
      simp only
      constructor
      · intro h; cases h
      · intro h
        rw [(linkPart_none_iff labels part.link_map part.bytes).mpr h.1] at he
        cases he
    | none =>
      simp only
      have h1 := (linkPart_none_iff labels part.link_map part.bytes).mp he
      rw [ih]
      exact ⟨fun h => ⟨h1, h⟩, fun h => h.2⟩

theorem linkParts_some (labels : List (String × Nat)) (parts : List CodePart) :
    ∀ msg, (linkParts labels parts).1 = some msg →
      ∃ name, msg = "label " ++ name ++ " is not defined"
        ∧ lookupLabel labels name = none := by
  induction parts with
  | nil => intro msg h; simp [linkParts] at h
  | cons part rest ih =>
    intro msg h
    unfold linkParts at h
    cases he : (linkPart labels part.link_map part.bytes).1 with
    | some m =>
      rw [he] at h
      simp only [Option.some.injEq] at h
      subst h
      exact linkPart_some labels part.link_map _ _ he
    | none =>
      rw [he] at h
      exact ih _ h

/-- C4 (amended): `link` succeeds exactly when every pending link of every
region resolves in the label table, and a failing link reports an error naming
a label that is absent — but the failure is not all-or-nothing (see the
counterexample theorem): regions already processed keep their patches. -/
theorem c4_link_error_names_missing_label :
    (∀ p : Program, (link p).1 = none ↔
        ∀ part ∈ p.parts, ∀ pl ∈ part.link_map,
          (lookupLabel p.labels pl.2.label).isSome = true)
    ∧ (∀ (p : Program) (msg : String), (link p).1 = some msg →
        ∃ name, msg = "label " ++ name ++ " is not defined"
          ∧ lookupLabel p.labels name = none) := by
  constructor
  · intro p
    unfold link
    exact linkParts_none_iff p.labels p.parts
  · intro p msg h
    unfold link at h
    exact linkParts_some p.labels p.parts msg h

/-- Two regions: the first has a resolvable pending link (label "a"), the
second references the missing label "b". -/
def c4_prog : Program :=
  { parts := [⟨[0, 0], 0, 2, [(0, ⟨"a", 0⟩)]⟩,
              ⟨[0, 0], 16, 18, [(0, ⟨"b", 0⟩)]⟩],
    part_i := 1,
    labels := [("a", 5)] }

/-- C4 counterexample: the failed link reports the missing label "b", but the
byte buffer of the first region HAS been patched (0x0005 written over the zero
placeholder) — partial patching is observable on failure, so the link is not
all-or-nothing on the byte buffers. -/
theorem c4_partial_patch_on_failure :
    (link c4_prog).1 = some "label b is not defined"
    ∧ ((link c4_prog).2.parts.getD 0 (CodePart.new 0)).bytes = [0, 5]
    ∧ (c4_prog.parts.getD 0 (CodePart.new 0)).bytes = [0, 0] := by
  decide

/-- Witness for the amended C4 theorem at the concrete failing program. -/
theorem c4_link_error_names_missing_label_witness :
    ∃ name, "label b is not defined" = "label " ++ name ++ " is not defined"
      ∧ lookupLabel c4_prog.labels name = none :=
  c4_link_error_names_missing_label.2 c4_prog "label b is not defined" (by decide)

/-! ## C6: region-overlap validation -/

theorem checkOverlap_none_iff (l : List CodePart) :
    checkOverlap l = none ↔
      List.Chain'
        (fun a b => (a.start_pc + a.bytes.length % 65536) % 65536 ≤ b.start_pc)
        l := by
  induction l with
  | nil => simp [checkOverlap]
  | cons a tail ih =>
    cases tail with
    | nil => simp [checkOverlap]
    | cons b rest =>
      unfold checkOverlap
      rw [List.chain'_cons]
      by_cases hc : (a.start_pc + a.bytes.length % 65536) % 65536 > b.start_pc
      · rw [if_pos hc]
        constructor
        · intro h; cases h
        · intro h; omega
      · rw [if_neg hc]
        rw [ih]
        constructor
        · intro h; exact ⟨by omega, h⟩
        · intro h; exact h.2

/-- Regions at 0x0000 (16 bytes) and 0x0020 (16 bytes): valid. -/
def c6_prog_ok : Program :=
  { parts := [⟨List.replicate 16 0, 0, 16, []⟩, ⟨List.replicate 16 0, 32, 48, []⟩],
    part_i := 1, labels := [] }

/-- Regions at 0x0000 (48 bytes) and 0x0020: the first runs into the second. -/
def c6_prog_overlap : Program :=
  { parts := [⟨List.replicate 48 0, 0, 48, []⟩, ⟨List.replicate 16 0, 32, 48, []⟩],
    part_i := 1, labels := [] }

/-- C6: `validate` sorts the regions by origin and succeeds exactly when no
region has a `[origin, origin+length)` range (u16 arithmetic) running past
the origin of the next region; the 0x0000/len-0x10 + 0x0020 pair validates, while the
0x0000/len-0x30 + 0x0020 pair fails with the overlap error. -/
theorem c6_validate_sorted_overlap :
    (∀ p : Program, (p.validate).1 = none ↔
        List.Chain'
          (fun a b => (a.start_pc + a.bytes.length % 65536) % 65536 ≤ b.start_pc)
          (p.parts.insertionSort (fun a b => a.start_pc ≤ b.start_pc)))
    ∧ (c6_prog_ok.validate).1 = none
    ∧ (c6_prog_overlap.validate).1 = some (overlapError 0x0000 0x0030 0x0020) := by
  refine ⟨?_, by decide, by decide⟩
  intro p
  unfold Program.validate
  exact checkOverlap_none_iff _

/-- Witness for the C6 characterisation at the valid concrete program. -/
theorem c6_validate_sorted_overlap_witness :
    (c6_prog_ok.validate).1 = none ↔
      List.Chain'
        (fun a b => (a.start_pc + a.bytes.length % 65536) % 65536 ≤ b.start_pc)
        (c6_prog_ok.parts.insertionSort (fun a b => a.start_pc ≤ b.start_pc)) :=
  c6_validate_sorted_overlap.1 c6_prog_ok

/-! ## C8/C9: lexer loop termination machinery -/

/-- Termination measure for the scanning loops of the lexer: the unread source,
weighted so that every `read_char` strictly decreases it except in the dead
state (everything exhausted). -/
def lexMeasure (l : Lexer) : Nat :=
  3 * l.reader.length + 2 * (if l.peek_ch ≠ 0 then 1 else 0)
    + (if l.cur_ch ≠ 0 then 1 else 0)

theorem lexMeasure_read_char_lt (l : Lexer)
    (h : l.cur_ch ≠ 0 ∨ l.peek_ch ≠ 0 ∨ l.reader ≠ []) :
    lexMeasure l.read_char < lexMeasure l := by
  rcases hr : l.reader with _ | ⟨b, rest⟩
  · have h2 : l.cur_ch ≠ 0 ∨ l.peek_ch ≠ 0 := by
      rcases h with h | h | h
      · exact Or.inl h
      · exact Or.inr h
      · exact absurd hr h
    unfold lexMeasure Lexer.read_char
    rw [hr]
    simp only [takeByte]
    rw [if_neg (by decide : ¬(0 : Nat) = 13)]
    dsimp only [List.length_nil]
    rcases h2 with h2 | h2 <;> split_ifs <;> omega
  · unfold lexMeasure Lexer.read_char
    rw [hr]
    by_cases hb : b = 13
    · subst hb
      rcases rest with _ | ⟨q, rest2⟩ <;>
        (simp only [takeByte, if_true]
         dsimp only [List.length_nil, List.length_cons]
         split_ifs <;> omega)
    · simp only [takeByte]
      rw [if_neg hb]
      dsimp only [List.length_cons]
      split_ifs <;> omega

theorem lexMeasure_read_char_le (l : Lexer) :
    lexMeasure l.read_char ≤ lexMeasure l := by
  by_cases h : l.cur_ch ≠ 0 ∨ l.peek_ch ≠ 0 ∨ l.reader ≠ []
  · exact le_of_lt (lexMeasure_read_char_lt l h)
  · push_neg at h
    obtain ⟨h1, h2, h3⟩ := h
    unfold lexMeasure Lexer.read_char
    rw [h3]
    simp [takeByte, h1, h2]

theorem lexMeasure_zero (l : Lexer) (h : lexMeasure l = 0) :
    l.cur_ch = 0 ∧ l.peek_ch = 0 ∧ l.reader = [] := by
  unfold lexMeasure at h
  refine ⟨?_, ?_, ?_⟩
  · by_cases hc : l.cur_ch = 0
    · exact hc
    · exfalso
      rw [if_pos hc] at h
      split_ifs at h
  · by_cases hp : l.peek_ch = 0
    · exact hp
    · exfalso
      rw [if_pos hp] at h
      split_ifs at h
  · have hlen : l.reader.length = 0 := by
      split_ifs at h
      all_goals omega
    exact List.length_eq_zero.mp hlen

theorem scan_loop_mono (P : Nat → Bool) :
    ∀ (m n : Nat) (l : Lexer) (x : List Nat × Lexer), m ≤ n →
      scan_loop P m l = some x → scan_loop P n l = some x := by
  intro m
  induction m with
  | zero => intro n l x _ h; cases h
  | succ m ih =>
    intro n l x hmn h
    cases n with
    | zero => omega
    | succ n =>
      unfold scan_loop at h ⊢
      by_cases hp : P l.cur_ch = true
      · rw [if_pos hp] at h ⊢
        cases hs : scan_loop P m l.read_char with
        | none => rw [hs] at h; cases h
        | some y =>
          rw [hs] at h
          rw [ih n l.read_char y (by omega) hs]
          exact h
      · rw [if_neg hp] at h ⊢
        exact h

theorem scan_loop_terminates (P : Nat → Bool) (hP : P 0 = false) :
    ∀ l : Lexer, (scan_loop P (lexMeasure l + 1) l).isSome = true := by
  have main : ∀ (n : Nat) (l : Lexer), lexMeasure l ≤ n →
      (scan_loop P (lexMeasure l + 1) l).isSome = true := by
    intro n
    induction n with
    | zero =>
      intro l hl
      obtain ⟨hc, _, _⟩ := lexMeasure_zero l (by omega)
      unfold scan_loop
      rw [if_neg (by rw [hc, hP]; exact Bool.false_ne_true)]
      rfl
    | succ n ih =>
      intro l hl
      unfold scan_loop
      by_cases hp : P l.cur_ch = true
      · rw [if_pos hp]
        have hcur : l.cur_ch ≠ 0 := by
          intro hc
          rw [hc, hP] at hp
          cases hp
        have hdec := lexMeasure_read_char_lt l (Or.inl hcur)
        have ihl := ih l.read_char (by omega)
        obtain ⟨x, hx⟩ := Option.isSome_iff_exists.mp ihl
        rw [scan_loop_mono P _ (lexMeasure l) _ x (by omega) hx]
        rfl
      · rw [if_neg hp]
        rfl
  exact fun l => main (lexMeasure l) l le_rfl

/-- Every lexer loop whose predicate rejects the NUL byte terminates on every
(finite) source. -/
theorem scan_loop_total (P : Nat → Bool) (hP : P 0 = false) (l : Lexer) :
    ∃ n, (scan_loop P n l).isSome = true :=
  ⟨lexMeasure l + 1, scan_loop_terminates P hP l⟩

theorem scan_loop_measure (P : Nat → Bool) :
    ∀ (n : Nat) (l : Lexer) (x : List Nat × Lexer),
      scan_loop P n l = some x → lexMeasure x.2 ≤ lexMeasure l := by
  intro n
  induction n with
  | zero => intro l x h; cases h
  | succ n ih =>
    intro l x h
    unfold scan_loop at h
    by_cases hp : P l.cur_ch = true
    · rw [if_pos hp] at h
      cases hs : scan_loop P n l.read_char with
      | none => rw [hs] at h; cases h
      | some y =>
        rw [hs] at h
        cases h
        calc lexMeasure y.2 ≤ lexMeasure l.read_char := ih l.read_char y hs
          _ ≤ lexMeasure l := lexMeasure_read_char_le l
    · rw [if_neg hp] at h
      cases h
      rfl

/-- The exit condition of a scanning loop: the character it stops on fails the
predicate (in particular `devour_whitespace` never stops on a newline). -/
theorem scan_loop_exit (P : Nat → Bool) :
    ∀ (n : Nat) (l : Lexer) (x : List Nat × Lexer),
      scan_loop P n l = some x → P x.2.cur_ch = false := by
  intro n
  induction n with
  | zero => intro l x h; cases h
  | succ n ih =>
    intro l x h
    unfold scan_loop at h
    by_cases hp : P l.cur_ch = true
    · rw [if_pos hp] at h
      cases hs : scan_loop P n l.read_char with
      | none => rw [hs] at h; cases h
      | some y =>
        rw [hs] at h
        cases h
        exact ih l.read_char y hs
    · rw [if_neg hp] at h
      cases h
      exact Bool.not_eq_true _ |>.mp hp

/-- No double-quote byte anywhere among the characters the string loop can
still read. -/
def NoQuote (l : Lexer) : Prop :=
  l.cur_ch ≠ 34 ∧ l.peek_ch ≠ 34 ∧ 34 ∉ l.reader

theorem NoQuote_read_char (l : Lexer) (h : NoQuote l) : NoQuote l.read_char := by
  obtain ⟨h1, h2, h3⟩ := h
  unfold NoQuote Lexer.read_char
  rcases hr : l.reader with _ | ⟨b, rest⟩
  · simp only [takeByte]
    rw [if_neg (by decide : ¬(0 : Nat) = 13)]
    exact ⟨h2, by simp, by simp⟩
  · rw [hr] at h3
    simp only [List.mem_cons, not_or] at h3
    by_cases hb : b = 13
    · subst hb
      rcases rest with _ | ⟨q, rest2⟩
      · simp only [takeByte, if_true]
        exact ⟨h2, by simp, by simp⟩
      · simp only [List.mem_cons, not_or] at h3
        simp only [takeByte, if_true]
        exact ⟨h2, Ne.symm h3.2.1, fun hm => h3.2.2 hm⟩
    · simp only [takeByte]
      rw [if_neg hb]
      exact ⟨h2, Ne.symm h3.1, fun hm => h3.2 hm⟩

/-- Without a double quote in reach, the string loop never finishes: each
iteration reads the exhausted source as zero bytes (never the quote). -/
theorem scan_loop_quote_none :
    ∀ (n : Nat) (l : Lexer), NoQuote l →
      scan_loop (fun c => !(c = 34)) n l = none := by
  intro n
  induction n with
  | zero => intro l _; rfl
  | succ n ih =>
    intro l h
    unfold scan_loop
    rw [if_pos (by simp [h.1])]
    rw [ih l.read_char (NoQuote_read_char l h)]

theorem quote_mem_read_char (l : Lexer) (hc : l.cur_ch ≠ 34)
    (hq : 34 ∈ l.cur_ch :: l.peek_ch :: l.reader) :
    34 ∈ l.read_char.cur_ch :: l.read_char.peek_ch :: l.read_char.reader := by
  simp only [List.mem_cons] at hq
  rcases hq with hq | hq | hq
  · exact absurd hq.symm hc
  · unfold Lexer.read_char
    rcases l.reader with _ | ⟨b, rest⟩
    · simp [takeByte, hq.symm]
    · simp [takeByte, hq.symm]
      split <;> simp
  · unfold Lexer.read_char
    rcases hr : l.reader with _ | ⟨b, rest⟩
    · rw [hr] at hq; cases hq
    · rw [hr] at hq
      simp only [List.mem_cons] at hq
      by_cases hb : b = 13
      · subst hb
        rcases hq with hq | hq
        · cases hq
        · rcases rest with _ | ⟨q, rest2⟩
          · cases hq
          · simp only [List.mem_cons] at hq
            simp only [takeByte, if_true]
            simp only [List.mem_cons]
            tauto
      · simp only [takeByte]
        rw [if_neg hb]
        simp only [List.mem_cons]
        tauto

theorem scan_loop_quote_some :
    ∀ (n : Nat) (l : Lexer), lexMeasure l ≤ n →
      34 ∈ l.cur_ch :: l.peek_ch :: l.reader →
      (scan_loop (fun c => !(c = 34)) (lexMeasure l + 1) l).isSome = true := by
  intro n
  induction n with
  | zero =>
    intro l hl hq
    obtain ⟨h1, h2, h3⟩ := lexMeasure_zero l (by omega)
    rw [h1, h2, h3] at hq
    simp at hq
  | succ n ih =>
    intro l hl hq
    by_cases hc : l.cur_ch = 34
    · unfold scan_loop
      rw [if_neg (by simp [hc])]
      rfl
    · have hnd : l.cur_ch ≠ 0 ∨ l.peek_ch ≠ 0 ∨ l.reader ≠ [] := by
        simp only [List.mem_cons] at hq
        rcases hq with hq | hq | hq
        · exact Or.inl (by omega)
        · exact Or.inr (Or.inl (by omega))
        · refine Or.inr (Or.inr ?_)
          intro hre
          rw [hre] at hq
          cases hq
      have hdec := lexMeasure_read_char_lt l hnd
      have hq2 := quote_mem_read_char l hc hq
      have ihl := ih l.read_char (by omega) hq2
      obtain ⟨x, hx⟩ := Option.isSome_iff_exists.mp ihl
      unfold scan_loop
      rw [if_pos (by simp [hc])]
      rw [scan_loop_mono _ _ (lexMeasure l) _ x (by omega) hx]
      rfl

/-- The string loop of `read_string` terminates exactly when a closing quote
is among the characters still reachable after skipping the opening quote. -/
theorem read_string_terminates_iff (l : Lexer) :
    (∃ n, (Lexer.read_string n l).isSome = true) ↔
      34 ∈ l.read_char.cur_ch :: l.read_char.peek_ch :: l.read_char.reader := by
  unfold Lexer.read_string
  constructor
  · intro ⟨n, hn⟩
    by_contra hq
    simp only [List.mem_cons, not_or] at hq
    have hnq : NoQuote l.read_char := ⟨fun h => hq.1 h.symm, fun h => hq.2.1 h.symm,
      hq.2.2⟩
    rw [scan_loop_quote_none n l.read_char hnq] at hn
    cases hn
  · intro hq
    refine ⟨lexMeasure l.read_char + 1, ?_⟩
    have hs := scan_loop_quote_some (lexMeasure l.read_char) l.read_char le_rfl hq
    obtain ⟨x, hx⟩ := Option.isSome_iff_exists.mp hs
    rw [hx]
    rfl

theorem scan_loop_some_of_fuel (P : Nat → Bool) (hP : P 0 = false) (l : Lexer)
    (N : Nat) (h : lexMeasure l + 1 ≤ N) : ∃ x, scan_loop P N l = some x := by
  obtain ⟨x, hx⟩ := Option.isSome_iff_exists.mp (scan_loop_terminates P hP l)
  exact ⟨x, scan_loop_mono P (lexMeasure l + 1) N l x h hx⟩

/-- Any `next()` call that does not reach the string branch terminates: if the
whitespace skip stops on anything but a double quote, some fuel suffices. -/
theorem next_terminates_of_no_string (l l1 : Lexer) (n : Nat)
    (hdev : l.devour_whitespace n = some l1) (hne : l1.cur_ch ≠ 34) :
    nextTerminates l := by
  by_cases h10 : l.cur_ch = 10
  · refine ⟨1, ?_⟩
    unfold Lexer.next
    rw [if_pos h10]
    rfl
  unfold Lexer.devour_whitespace at hdev
  cases hscan : scan_loop is_whitespace n l with
  | none => rw [hscan] at hdev; cases hdev
  | some x =>
    rw [hscan] at hdev
    have hl1 : l1 = x.2 := (Option.some.inj hdev).symm
    subst hl1
    have hμ1 : lexMeasure x.2 ≤ lexMeasure l := scan_loop_measure _ n l x hscan
    refine ⟨n + lexMeasure l + 1, ?_⟩
    have hdevN : l.devour_whitespace (n + lexMeasure l + 1) = some x.2 := by
      unfold Lexer.devour_whitespace
      rw [scan_loop_mono is_whitespace n (n + lexMeasure l + 1) l x (by omega) hscan]
      rfl
    have hrc : lexMeasure x.2.read_char ≤ lexMeasure x.2 := lexMeasure_read_char_le _
    unfold Lexer.next
    rw [if_neg h10, hdevN]
    simp only
    by_cases h58 : x.2.cur_ch = 58
    · rw [if_pos h58]
      obtain ⟨y, hy⟩ := scan_loop_some_of_fuel is_ident (by decide) x.2.read_char
        (n + lexMeasure l + 1) (by omega)
      unfold Lexer.read_identifier
      rw [hy]
      rfl
    rw [if_neg h58]
    by_cases h35 : x.2.cur_ch = 35
    · rw [if_pos h35]; rfl
    rw [if_neg h35]
    by_cases h44 : x.2.cur_ch = 44
    · rw [if_pos h44]; rfl
    rw [if_neg h44]
    rw [if_neg hne]
    by_cases h59 : x.2.cur_ch = 59
    · rw [if_pos h59]
      obtain ⟨y, hy⟩ := scan_loop_some_of_fuel (fun c => !(c = 10) && !(c = 0))
        (by decide) x.2.read_char (n + lexMeasure l + 1) (by omega)
      unfold Lexer.read_single_line_comment
      rw [hy]
      rfl
    rw [if_neg h59]
    by_cases h37 : x.2.cur_ch = 37
    · rw [if_pos h37]
      split_ifs <;> rfl
    rw [if_neg h37]
    by_cases h0 : x.2.cur_ch = 0
    · rw [if_pos h0]; rfl
    rw [if_neg h0]
    by_cases hlet : is_letter x.2.cur_ch = true
    · rw [if_pos hlet]
      obtain ⟨y, hy⟩ := scan_loop_some_of_fuel is_ident (by decide) x.2
        (n + lexMeasure l + 1) (by omega)
      unfold Lexer.read_identifier
      rw [hy]
      rfl
    rw [if_neg hlet]
    by_cases hdig : is_digit x.2.cur_ch = true
    · rw [if_pos hdig]
      obtain ⟨y, hy⟩ := scan_loop_some_of_fuel
        (fun c => is_digit c || is_hex_digit c || c = 33) (by decide) x.2
        (n + lexMeasure l + 1) (by omega)
      unfold Lexer.read_number
      rw [hy]
      rfl
    rw [if_neg hdig]
    rfl

/-- C8 (amended): a newline that is the current character when `next()` is
called yields an END_INST token (and position reset); but `is_whitespace`
also accepts the newline byte, and whitespace skipping never stops on a
newline — so a newline reached while skipping spaces or tabs is consumed
silently and produces no END_INST token. -/
theorem c8_whitespace_newline :
    (∀ (l : Lexer) (fuel : Nat), l.cur_ch = 10 →
        Lexer.next fuel l
          = some (Token.simple .END_INST l.line l.col, l.reset_pos.read_char))
    ∧ is_whitespace 10 = true
    ∧ (∀ (n : Nat) (l l2 : Lexer), l.devour_whitespace n = some l2 →
        l2.cur_ch ≠ 10) := by
  refine ⟨?_, by decide, ?_⟩
  · intro l fuel h
    unfold Lexer.next
    rw [if_pos h]
  · intro n l l2 hdev
    unfold Lexer.devour_whitespace at hdev
    cases hscan : scan_loop is_whitespace n l with
    | none => rw [hscan] at hdev; cases hdev
    | some x =>
      rw [hscan] at hdev
      have hl2 : l2 = x.2 := (Option.some.inj hdev).symm
      subst hl2
      have hexit := scan_loop_exit is_whitespace n l x hscan
      intro h10
      rw [h10] at hexit
      cases hexit

/-- C8 counterexample: lexing `"A \nB"` (a newline preceded by a trailing
space) produces no END_INST token at all — the newline byte is consumed by
the whitespace skip. -/
theorem c8_trailing_space_newline :
    (lexTokens 20 (Lexer.new [65, 32, 10, 66])).map Token.name
        = [.IDENT, .IDENT, .EOF]
    ∧ 10 ∈ [65, 32, 10, 66] := by
  constructor
  · decide
  · decide

def c8_wl : Lexer := Lexer.new [10]

/-- Witness for the amended C8 theorem: a lexer whose current character is the
newline emits END_INST. -/
theorem c8_whitespace_newline_witness :
    Lexer.next 5 c8_wl
      = some (Token.simple .END_INST c8_wl.line c8_wl.col, c8_wl.reset_pos.read_char) :=
  c8_whitespace_newline.1 c8_wl 5 (by decide)

/-- C9 (amended): every lexer loop whose predicate rejects the NUL byte
(whitespace, identifier, number, comment) terminates on every finite source,
and `next()` terminates whenever the whitespace skip does not stop on a
double quote; the string loop itself terminates exactly when a closing quote
occurs among the characters still to be read — a string literal whose closing
quote is missing makes `next()` read the exhausted source as zero bytes
forever and never yield a token. -/
theorem c9_next_termination :
    (∀ P : Nat → Bool, P 0 = false → ∀ l : Lexer,
        ∃ n, (scan_loop P n l).isSome = true)
    ∧ (∀ l : Lexer, (∃ n, (Lexer.read_string n l).isSome = true) ↔
        34 ∈ l.read_char.cur_ch :: l.read_char.peek_ch :: l.read_char.reader)
    ∧ (∀ (l l1 : Lexer) (n : Nat), l.devour_whitespace n = some l1 →
        l1.cur_ch ≠ 34 → nextTerminates l)
    ∧ (∀ l : Lexer, l.cur_ch = 10 → nextTerminates l) := by
  refine ⟨scan_loop_total, read_string_terminates_iff,
    next_terminates_of_no_string, ?_⟩
  intro l h
  refine ⟨1, ?_⟩
  unfold Lexer.next
  rw [if_pos h]
  rfl

/-- C9 counterexample: on the unterminated string source `"abc` no amount of
fuel makes `next()` finish — the Rust `next()` loops forever instead of
returning a STRING token. -/
theorem c9_unterminated_string_diverges :
    ¬ nextTerminates (Lexer.new [34, 97, 98, 99]) := by
  rintro ⟨n, hn⟩
  have hall : ∀ m, Lexer.next m (Lexer.new [34, 97, 98, 99]) = none := by
    intro m
    cases m with
    | zero => decide
    | succ m =>
      unfold Lexer.next
      rw [if_neg (by decide : ¬(Lexer.new [34, 97, 98, 99]).cur_ch = 10)]
      have hdev : (Lexer.new [34, 97, 98, 99]).devour_whitespace (m + 1)
          = some (Lexer.new [34, 97, 98, 99]) := by
        unfold Lexer.devour_whitespace
        unfold scan_loop
        rw [if_neg (by decide)]
        rfl
      rw [hdev]
      simp only
      rw [if_neg (by decide : ¬(Lexer.new [34, 97, 98, 99]).cur_ch = 58)]
      rw [if_neg (by decide : ¬(Lexer.new [34, 97, 98, 99]).cur_ch = 35)]
      rw [if_neg (by decide : ¬(Lexer.new [34, 97, 98, 99]).cur_ch = 44)]
      rw [if_pos (by decide : (Lexer.new [34, 97, 98, 99]).cur_ch = 34)]
      unfold Lexer.read_string
      rw [scan_loop_quote_none (m + 1) _ ⟨by decide, by decide, by decide⟩]
      rfl
  rw [hall n] at hn
  cases hn

/-- Witness for the amended C9 theorem: the whitespace loop on the empty source,
and a terminated-string call of `next()`. -/
theorem c9_next_termination_witness :
    (∃ n, (scan_loop is_whitespace n (Lexer.new [])).isSome = true)
    ∧ nextTerminates (Lexer.new [65, 66]) :=
  ⟨c9_next_termination.1 is_whitespace (by decide) (Lexer.new []),
   c9_next_termination.2.2.1 (Lexer.new [65, 66]) (Lexer.new [65, 66]) 1
     (by decide) (by decide)⟩
